import Mathlib

/-!
Verification of the ants-vs-bees simulation engine.

The engine (classes `Place`, `Hive`, `AntColony`, `AntGame` and the insect
classes `Bee`, `GrowerAnt`, `ThrowerAnt`, `EaterAnt`, `ScubaAnt`, `GuardAnt`)
is shallowly embedded below.  Object references are replaced by explicit
state passing: the grid owns its cells, a cell owns its two defender slots
inline, and bees (which move between cells and are referenced from the hive
wave table) are kept in an arena keyed by a numeric id, mirroring the object
identity of the source.  JavaScript exceptions (member access on `undefined`,
caught by the try/catch blocks of `AntGame`) are modelled with `Except Unit`.
`Math.random()` values are injected as explicit oracle arguments: a list of
rational rolls for `GrowerAnt.act` and a list of entrance choices for
`Hive.invade`.
-/

/-- Mutable state of a `Bee` object: armor, damage (fixed at creation) and
the transient status (`"stuck"` or `"cold"`). -/
structure BeeData where
  armor : Int
  damage : Int
  status : Option String
deriving DecidableEq

/-- The closed set of Ant classes of the source. -/
inductive AntKind where
  | grower
  | thrower
  | eater
  | scuba
  | guard
deriving DecidableEq

/-- Constructor armor values: Grower 1, Thrower 1, Eater 2, Scuba 1, Guard 2. -/
def AntKind.armorInit : AntKind → Int
  | .grower => 1
  | .thrower => 1
  | .eater => 2
  | .scuba => 1
  | .guard => 2

/-- Constructor food costs: Grower 1, Thrower 4, Eater 4, Scuba 5, Guard 4. -/
def AntKind.foodCost : AntKind → Nat
  | .grower => 1
  | .thrower => 4
  | .eater => 4
  | .scuba => 5
  | .guard => 4

/-- Mutable state of an `Ant` object.  `turnsEating` and `stomach` are the
extra fields of `EaterAnt` (the stomach is the bee list of the internal
`stomach` Place); they stay at their initial values for the other kinds. -/
structure AntData where
  kind : AntKind
  armor : Int
  boost : Option String
  turnsEating : Nat
  stomach : List Nat
deriving DecidableEq

/-- A freshly constructed ant of the given class. -/
def AntData.new (k : AntKind) : AntData :=
  { kind := k, armor := k.armorInit, boost := none, turnsEating := 0, stomach := [] }

/-- `ant.getFoodCost()`. -/
def AntData.foodCost (a : AntData) : Nat := a.kind.foodCost

/-- A `Place`: one tunnel cell.  `ant` is the non-Guard slot, `guard` the
Guard slot, `bees` the bee ids present in arrival order. -/
structure Place where
  water : Bool
  ant : Option AntData
  guard : Option AntData
  bees : List Nat
deriving DecidableEq

/-- `Place.getAnt`: the Guard if there is one, otherwise the regular ant. -/
def Place.getAnt (p : Place) : Option AntData :=
  match p.guard with
  | some g => some g
  | none => p.ant

/-- `Place.getGuardedAnt`: the regular (non-Guard) ant. -/
def Place.getGuardedAnt (p : Place) : Option AntData := p.ant

/-- `Place.addAnt`: a Guard goes into the guard slot, any other ant into the
regular slot; fails (returning `false` and leaving the cell unchanged) when
the matching slot is occupied. -/
def Place.addAnt (p : Place) (a : AntData) : Bool × Place :=
  if a.kind = AntKind.guard then
    match p.guard with
    | none => (true, { p with guard := some a })
    | some _ => (false, p)
  else
    match p.ant with
    | none => (true, { p with ant := some a })
    | some _ => (false, p)

/-- `Place.removeAnt`: removes and returns the Guard if present, otherwise
the regular ant. -/
def Place.removeAnt (p : Place) : Option AntData × Place :=
  match p.guard with
  | some g => (some g, { p with guard := none })
  | none => (p.ant, { p with ant := none })

/-- `Place.addBee`: push the bee at the end of the arrival list. -/
def Place.addBee (p : Place) (b : Nat) : Place :=
  { p with bees := p.bees ++ [b] }

/-- `Place.removeBee`: splice out the first occurrence of the bee. -/
def Place.removeBee (p : Place) (b : Nat) : Place :=
  { p with bees := p.bees.erase b }

/-- `Place.act`: on a water cell, remove the Guard (if any) and then remove
the regular ant unless it is a Scuba ant. -/
def Place.act (p : Place) : Place :=
  if p.water then
    let p1 := if p.guard.isSome then (Place.removeAnt p).2 else p
    let scuba : Bool := match p1.ant with | some a => decide (a.kind = AntKind.scuba) | none => false
    if scuba then p1 else (Place.removeAnt p1).2
  else p

/-- Loop body of `Place.getClosestBee`: walk the entrance chain (given as the
list of cells starting at the queried one), at increasing distance, returning
the first (earliest-arrived) bee of a cell whose distance lies in
`[minDistance, maxDistance]`; `none` when the chain ends or the maximum
distance is passed. -/
def Place.getClosestBeeGo : List Place → Nat → Nat → Nat → Option Nat
  | [], _, _, _ => none
  | p :: rest, dist, maxD, minD =>
    if dist ≤ maxD then
      if minD ≤ dist ∧ p.bees ≠ [] then p.bees.head?
      else Place.getClosestBeeGo rest (dist + 1) maxD minD
    else none

/-- `Place.getClosestBee(maxDistance, minDistance = 0)` over an explicit
entrance chain. -/
def Place.getClosestBee (chain : List Place) (maxD : Nat) (minD : Nat := 0) : Option Nat :=
  Place.getClosestBeeGo chain 0 maxD minD

/-- Pointwise update of the element at an index (identity out of range). -/
def updAt : List α → Nat → (α → α) → List α
  | [], _, _ => []
  | x :: xs, 0, f => f x :: xs
  | x :: xs, n + 1, f => x :: updAt xs n f

/-- Association-list lookup for the bee arena. -/
def arenaGet : List (Nat × BeeData) → Nat → Option BeeData
  | [], _ => none
  | x :: xs, b => if x.1 = b then some x.2 else arenaGet xs b

/-- Association-list update (only touches an existing key) for the bee arena. -/
def arenaSet : List (Nat × BeeData) → Nat → BeeData → List (Nat × BeeData)
  | [], _, _ => []
  | x :: xs, b, d => if x.1 = b then (b, d) :: xs else x :: arenaSet xs b d

/-- Lookup in the boost inventory object `{[index:string]:number}`. -/
def boostsGet : List (String × Nat) → String → Option Nat
  | [], _ => none
  | x :: xs, k => if x.1 = k then some x.2 else boostsGet xs k

/-- Assignment in the boost inventory object (overwrites, or registers a new
key at the end). -/
def boostsSet : List (String × Nat) → String → Nat → List (String × Nat)
  | [], k, v => [(k, v)]
  | x :: xs, k, v => if x.1 = k then (k, v) :: xs else x :: boostsSet xs k v

/-- Lookup in the hive wave table `{[index:number]:Bee[]}`. -/
def wavesGet : List (Nat × List Nat) → Nat → Option (List Nat)
  | [], _ => none
  | x :: xs, k => if x.1 = k then some x.2 else wavesGet xs k

/-- Assignment in the hive wave table (overwrites an existing turn key). -/
def wavesSet : List (Nat × List Nat) → Nat → List Nat → List (Nat × List Nat)
  | [], k, v => [(k, v)]
  | x :: xs, k, v => if x.1 = k then (k, v) :: xs else x :: wavesSet xs k v

/-- The `AntColony`: food stock, the 2D grid of places, the queen cell
(which only ever holds bees) and the boost inventory. -/
structure AntColony where
  food : Nat
  places : List (List Place)
  queenBees : List Nat
  boosts : List (String × Nat)
deriving DecidableEq

/-- Grid lookup `places[t][i]`. -/
def AntColony.getPlace (c : AntColony) (t i : Nat) : Option Place :=
  (c.places.get? t).bind (fun row => row.get? i)

/-- Update the cell at `(t, i)` in the grid. -/
def AntColony.setPlaceF (c : AntColony) (t i : Nat) (f : Place → Place) : AntColony :=
  { c with places := updAt c.places t (fun row => updAt row i f) }

/-- The entrance chain seen from cell `(t, i)`: the cell itself followed by
the cells to its right in the same tunnel (the constructor links each cell's
entrance to the next cell of its tunnel). -/
def AntColony.chainFrom (c : AntColony) (t i : Nat) : List Place :=
  ((c.places.get? t).getD []).drop i

/-- The colony constructor: `numTunnels` rows of `tunnelLength` cells, every
`moatFrequency`-th cell of a tunnel filled with water, and the boost
inventory pre-registered as FlyingLeaf 1, StickyLeaf 1, IcyLeaf 1,
BugSpray 0. -/
def AntColony.init (startingFood numTunnels tunnelLength : Nat) (moatFrequency : Nat := 0) :
    AntColony :=
  { food := startingFood
    places := (List.range numTunnels).map (fun _ =>
      (List.range tunnelLength).map (fun step =>
        { water := decide (moatFrequency ≠ 0 ∧ (step + 1) % moatFrequency = 0)
          ant := none, guard := none, bees := [] }))
    queenBees := []
    boosts := [("FlyingLeaf", 1), ("StickyLeaf", 1), ("IcyLeaf", 1), ("BugSpray", 0)] }

/-- `AntColony.increaseFood`. -/
def AntColony.increaseFood (c : AntColony) (amount : Nat) : AntColony :=
  { c with food := c.food + amount }

/-- `AntColony.queenHasBees`. -/
def AntColony.queenHasBees (c : AntColony) : Bool :=
  c.queenBees.length > 0

/-- `AntColony.addBoost`: register the name at 0 if unseen, then increment. -/
def AntColony.addBoost (c : AntColony) (boost : String) : AntColony :=
  { c with boosts := boostsSet c.boosts boost ((boostsGet c.boosts boost).getD 0 + 1) }

/-- `AntColony.deployAnt(ant, place)`.  The place argument is the result of
the grid lookup done by `AntGame`; `none` is JavaScript `undefined`, on which
the `place.addAnt` member access throws (`Except.error`).  Returns the error
string of the source (`none` meaning `undefined`, i.e. success). -/
def AntColony.deployAnt (c : AntColony) (a : AntData) (pl : Option (Nat × Nat)) :
    Except Unit (Option String × AntColony) :=
  if a.foodCost ≤ c.food then
    match pl with
    | none => Except.error ()
    | some (t, i) =>
      match c.getPlace t i with
      | none => Except.error ()
      | some p =>
        let res := Place.addAnt p a
        if res.1 then
          Except.ok (none, { c.setPlaceF t i (fun _ => res.2) with food := c.food - a.foodCost })
        else
          Except.ok (some "tunnel already occupied", c)
  else
    Except.ok (some "not enough food", c)

/-- `AntColony.removeAnt(place)`: delegates to `place.removeAnt()`. -/
def AntColony.removeAntAt (c : AntColony) (t i : Nat) : AntColony :=
  c.setPlaceF t i (fun p => (Place.removeAnt p).2)

/-- `ant.setBoost(boost)` applied to the result of `place.getAnt()`: the
Guard when one is present, otherwise the regular ant. -/
def Place.setBoostOnGetAnt (p : Place) (boost : String) : Place :=
  match p.guard with
  | some g => { p with guard := some { g with boost := some boost } }
  | none =>
    match p.ant with
    | some a => { p with ant := some { a with boost := some boost } }
    | none => p

/-- The string-keyed members every plain object inherits from
`Object.prototype`.  Reading one of these keys on the boost inventory
object yields a defined function value (or, for the last key, the prototype
object itself), so neither arm of the check
`boosts[name] === undefined || boosts[name] < 1` holds for them: the value
is not `undefined`, and comparing it with 1 compares `NaN`, which is false. -/
def jsObjectPropNames : List String :=
  ["constructor", "toString", "toLocaleString", "valueOf", "hasOwnProperty",
   "isPrototypeOf", "propertyIsEnumerable", "__defineGetter__",
   "__defineSetter__", "__lookupGetter__", "__lookupSetter__", "__proto__"]

/-- The unknown-boost test
`this.boosts[boost] === undefined || this.boosts[boost] < 1`: true when the
key is an own entry of the inventory with a count below 1, or is neither an
own entry nor a member inherited from `Object.prototype`. -/
def AntColony.boostMissing (c : AntColony) (boost : String) : Bool :=
  match boostsGet c.boosts boost with
  | some n => decide (n < 1)
  | none => !(decide (boost ∈ jsObjectPropNames))

/-- `AntColony.applyBoost(boost, place)`: `'no such boost'` when the
unknown-boost test fires (an own inventory count below 1, or a name that is
neither an own inventory entry nor inherited from `Object.prototype`); a
thrown member access when the place is not an actual cell; `'no Ant at
location'` when the cell is empty; otherwise the boost is set on the
defender and the inventory is left untouched. -/
def AntColony.applyBoost (c : AntColony) (boost : String) (pl : Option (Nat × Nat)) :
    Except Unit (Option String × AntColony) :=
  if c.boostMissing boost then Except.ok (some "no such boost", c)
  else
    match pl with
    | none => Except.error ()
    | some (t, i) =>
      match c.getPlace t i with
      | none => Except.error ()
      | some p =>
        match p.getAnt with
        | none => Except.ok (some "no Ant at location", c)
        | some _ => Except.ok (none, c.setPlaceF t i (fun q => q.setBoostOnGetAnt boost))

/-- `AntColony.getAllAnts`: scan the grid row-major and collect the result
of `getAnt()` at each occupied cell, paired with the cell coordinates (the
source ants carry their cell as a back-pointer). -/
def AntColony.getAllAnts (c : AntColony) : List (Nat × Nat × AntData) :=
  ((List.range c.places.length).map (fun t =>
    (List.range ((c.places.get? t).getD []).length).filterMap (fun i =>
      ((c.getPlace t i).bind Place.getAnt).map (fun a => (t, i, a))))).flatten

/-- `AntColony.getAllBees`: all bee ids on the grid, row-major, arrival order
within a cell.  The queen cell and the hive are not part of the grid. -/
def AntColony.getAllBees (c : AntColony) : List Nat :=
  (c.places.map (fun row => (row.map Place.bees).flatten)).flatten

/-- Which defender slot of a cell an ant occupies. -/
inductive Slot where
  | regular
  | guardSlot
deriving DecidableEq

/-- The state the insect behaviors act on: the colony plus the bee arena
(the mutable fields of all live `Bee` objects, keyed by id). -/
structure ColonyWorld where
  colony : AntColony
  arena : List (Nat × BeeData)
deriving DecidableEq

/-- The ant stored in the given slot of cell `(t, i)`. -/
def antAt (w : ColonyWorld) (t i : Nat) (slot : Slot) : Option AntData :=
  (w.colony.getPlace t i).bind (fun p =>
    match slot with
    | Slot.regular => p.ant
    | Slot.guardSlot => p.guard)

/-- Overwrite the ant in the given slot of cell `(t, i)` (mutation of the
ant object referenced from that slot). -/
def setAntAt (w : ColonyWorld) (t i : Nat) (slot : Slot) (a : AntData) : ColonyWorld :=
  { w with colony := w.colony.setPlaceF t i (fun p =>
      match slot with
      | Slot.regular => { p with ant := some a }
      | Slot.guardSlot => { p with guard := some a }) }

/-- `place.removeAnt()` at cell `(t, i)` (Guard removed first if present). -/
def removeAntAt (w : ColonyWorld) (t i : Nat) : ColonyWorld :=
  { w with colony := w.colony.setPlaceF t i (fun p => (Place.removeAnt p).2) }

/-- `place.addBee(bee)` at cell `(t, i)`. -/
def addBeeAt (w : ColonyWorld) (t i : Nat) (b : Nat) : ColonyWorld :=
  { w with colony := w.colony.setPlaceF t i (fun p => p.addBee b) }

/-- `place.removeBee(bee)` at cell `(t, i)`. -/
def removeBeeAt (w : ColonyWorld) (t i : Nat) (b : Nat) : ColonyWorld :=
  { w with colony := w.colony.setPlaceF t i (fun p => p.removeBee b) }

/-- The grid cell currently holding the given bee (the bee's `place`
back-pointer). -/
def findBeePosGo : List (List Place) → Nat → Nat → Option (Nat × Nat)
  | [], _, _ => none
  | row :: rows, t, b =>
    match row.findIdx? (fun p => decide (b ∈ p.bees)) with
    | some i => some (t, i)
    | none => findBeePosGo rows (t + 1) b

/-- Position of a bee on the grid, if it is on the grid. -/
def findBeePos (c : AntColony) (b : Nat) : Option (Nat × Nat) :=
  findBeePosGo c.places 0 b

/-- `bee.setStatus(status)` (also used for the end-of-action clearing). -/
def Bee.setStatus (w : ColonyWorld) (b : Nat) (status : Option String) : ColonyWorld :=
  match arenaGet w.arena b with
  | none => w
  | some d => { w with arena := arenaSet w.arena b { d with status := status } }

/-- `Insect.reduceArmor` on a `Bee`: subtract the amount and, when armor
drops to 0 or below, detach the bee from its place (grid cell or queen
cell). -/
def Bee.reduceArmor (w : ColonyWorld) (b : Nat) (amount : Int) : ColonyWorld :=
  match arenaGet w.arena b with
  | none => w
  | some d =>
    let d2 := { d with armor := d.armor - amount }
    let w2 := { w with arena := arenaSet w.arena b d2 }
    if d2.armor ≤ 0 then
      match findBeePos w2.colony b with
      | some (t, i) => removeBeeAt w2 t i b
      | none =>
        if b ∈ w2.colony.queenBees then
          { w2 with colony := { w2.colony with queenBees := w2.colony.queenBees.erase b } }
        else w2
    else w2

/-- `EaterAnt.reduceArmor` override: non-fatal damage while `turnsEating`
is 1 coughs the swallowed bee back into the cell and forces the counter
to 3; fatal damage with `turnsEating` in `[1, 2]` coughs the bee up and
then falls through to `super.reduceArmor(amount)`, which subtracts the
amount a second time before detaching the dead Eater. -/
def EaterAnt.reduceArmorAt (w : ColonyWorld) (t i : Nat) (slot : Slot) (amount : Int) :
    ColonyWorld :=
  match antAt w t i slot with
  | none => w
  | some a =>
    let armor2 := a.armor - amount
    if armor2 > 0 then
      if a.turnsEating = 1 then
        match a.stomach.head? with
        | some eaten =>
          addBeeAt
            (setAntAt w t i slot
              { a with armor := armor2, stomach := a.stomach.tail, turnsEating := 3 })
            t i eaten
        | none => setAntAt w t i slot { a with armor := armor2 }
      else setAntAt w t i slot { a with armor := armor2 }
    else
      let w1 :=
        if 0 < a.turnsEating ∧ a.turnsEating ≤ 2 then
          match a.stomach.head? with
          | some eaten =>
            addBeeAt
              (setAntAt w t i slot { a with armor := armor2, stomach := a.stomach.tail })
              t i eaten
          | none => setAntAt w t i slot { a with armor := armor2 }
        else setAntAt w t i slot { a with armor := armor2 }
      match antAt w1 t i slot with
      | none => w1
      | some a2 =>
        let armor3 := a2.armor - amount
        let w2 := setAntAt w1 t i slot { a2 with armor := armor3 }
        if armor3 ≤ 0 then removeAntAt w2 t i else w2

/-- `Insect.reduceArmor` on an `Ant`, with dynamic dispatch to the Eater
override.  The generic version subtracts the amount and on death calls
`place.removeInsect`, which runs `place.removeAnt()` — removing the Guard
first when one is present, whichever ant actually died. -/
def Ant.reduceArmorAt (w : ColonyWorld) (t i : Nat) (slot : Slot) (amount : Int) :
    ColonyWorld :=
  match antAt w t i slot with
  | none => w
  | some a =>
    if a.kind = AntKind.eater then EaterAnt.reduceArmorAt w t i slot amount
    else
      let a2 := { a with armor := a.armor - amount }
      let w2 := setAntAt w t i slot a2
      if a2.armor ≤ 0 then removeAntAt w2 t i else w2

/-- `GrowerAnt.act`: one uniform sample decides between food (below 0.6),
FlyingLeaf (below 0.7), StickyLeaf (below 0.8), IcyLeaf (below 0.9),
BugSpray (below 0.95) and nothing. -/
def GrowerAnt.act (w : ColonyWorld) (roll : ℚ) : ColonyWorld :=
  if roll < 6/10 then { w with colony := w.colony.increaseFood 1 }
  else if roll < 7/10 then { w with colony := w.colony.addBoost "FlyingLeaf" }
  else if roll < 8/10 then { w with colony := w.colony.addBoost "StickyLeaf" }
  else if roll < 9/10 then { w with colony := w.colony.addBoost "IcyLeaf" }
  else if roll < 19/20 then { w with colony := w.colony.addBoost "BugSpray" }
  else w

/-- One BugSpray volley against a single bee: `reduceArmor(10)` repeatedly
until the bee dies (the source loop re-queries `getClosestBee(0)`, which
keeps returning the same first bee of the cell until it is removed).
`n` is the current armor of the bee, so the recursion counts the hits. -/
def ThrowerAnt.sprayBee (w : ColonyWorld) (b : Nat) (n : Nat) : ColonyWorld :=
  if n ≤ 10 then Bee.reduceArmor w b 10
  else ThrowerAnt.sprayBee (Bee.reduceArmor w b 10) b (n - 10)
termination_by n
decreasing_by
  simp_wf
  omega

/-- The BugSpray loop over the whole cell: the first bee of the cell is
sprayed until it dies and drops out of the list, then the next, until the
cell holds no bee. -/
def ThrowerAnt.sprayAll (w : ColonyWorld) (bs : List Nat) : ColonyWorld :=
  bs.foldl (fun w2 b => ThrowerAnt.sprayBee w2 b ((arenaGet w2.arena b).elim 0 (fun d => d.armor.toNat))) w

/-- `ThrowerAnt.act` (the body of `ScubaAnt.act` is identical):  without a
BugSpray boost, throw at the closest bee within range 5 (FlyingLeaf) or 3,
apply StickyLeaf/IcyLeaf statuses, and clear the boost — all only when a
target was found.  With BugSpray, kill every bee in the cell and then
self-inflict 10 damage. -/
def ThrowerAnt.act (w : ColonyWorld) (t i : Nat) (slot : Slot) : ColonyWorld :=
  match antAt w t i slot with
  | none => w
  | some a =>
    if a.boost ≠ some "BugSpray" then
      let range := if a.boost = some "FlyingLeaf" then 5 else 3
      match Place.getClosestBee (w.colony.chainFrom t i) range with
      | some target =>
        let w1 := Bee.reduceArmor w target 1
        let w2 := if a.boost = some "StickyLeaf" then Bee.setStatus w1 target (some "stuck") else w1
        let w3 := if a.boost = some "IcyLeaf" then Bee.setStatus w2 target (some "cold") else w2
        match antAt w3 t i slot with
        | some a3 => setAntAt w3 t i slot { a3 with boost := none }
        | none => w3
      | none => w
    else
      let cellBees := ((w.colony.getPlace t i).elim [] Place.bees)
      let w1 := ThrowerAnt.sprayAll w cellBees
      Ant.reduceArmorAt w1 t i slot 10

/-- `ScubaAnt.act`: the source body is a verbatim copy of
`ThrowerAnt.act`. -/
def ScubaAnt.act (w : ColonyWorld) (t i : Nat) (slot : Slot) : ColonyWorld :=
  ThrowerAnt.act w t i slot

/-- `EaterAnt.act`: with an empty stomach (counter 0) swallow the bee at
distance 0, moving it from the cell into the stomach and setting the
counter to 1; otherwise release (destroy) the digested bee and reset the
counter when it exceeds 3, else increment it. -/
def EaterAnt.act (w : ColonyWorld) (t i : Nat) (slot : Slot) : ColonyWorld :=
  match antAt w t i slot with
  | none => w
  | some a =>
    if a.turnsEating = 0 then
      match Place.getClosestBee (w.colony.chainFrom t i) 0 with
      | some target =>
        setAntAt (removeBeeAt w t i target) t i slot
          { a with stomach := a.stomach ++ [target], turnsEating := 1 }
      | none => w
    else if a.turnsEating > 3 then
      setAntAt w t i slot { a with stomach := a.stomach.tail, turnsEating := 0 }
    else
      setAntAt w t i slot { a with turnsEating := a.turnsEating + 1 }

/-- `GuardAnt.act`: does nothing. -/
def GuardAnt.act (w : ColonyWorld) : ColonyWorld := w

/-- Dynamic dispatch of `ant.act(colony)` for the ant in the given slot; a
Grower consumes the next random roll. -/
def actAnt (w : ColonyWorld) (t i : Nat) (slot : Slot) (rolls : List ℚ) :
    ColonyWorld × List ℚ :=
  match antAt w t i slot with
  | none => (w, rolls)
  | some a =>
    match a.kind with
    | AntKind.grower => (GrowerAnt.act w (rolls.headD 1), rolls.tail)
    | AntKind.thrower => (ThrowerAnt.act w t i slot, rolls)
    | AntKind.scuba => (ScubaAnt.act w t i slot, rolls)
    | AntKind.eater => (EaterAnt.act w t i slot, rolls)
    | AntKind.guard => (GuardAnt.act w, rolls)

/-- State threaded through the defender sweep: the world, the remaining
random rolls, and a trace recording every `act` invocation as the acting
cell plus slot. -/
structure SweepState where
  world : ColonyWorld
  rolls : List ℚ
  trace : List ((Nat × Nat) × Slot)
deriving DecidableEq

/-- Processing of one entry of the `antsAct` sweep: for a Guard entry, first
run the act of the currently guarded ant (if any), then the Guard's own act;
for any other entry, run its act. -/
def AntColony.runAntEntry (st : SweepState) (e : Nat × Nat × AntData) : SweepState :=
  let t := e.1
  let i := e.2.1
  let a := e.2.2
  if a.kind = AntKind.guard then
    match (st.world.colony.getPlace t i).bind Place.getGuardedAnt with
    | some _ =>
      let r1 := actAnt st.world t i Slot.regular st.rolls
      let r2 := actAnt r1.1 t i Slot.guardSlot r1.2
      { world := r2.1, rolls := r2.2
        trace := st.trace ++ [((t, i), Slot.regular), ((t, i), Slot.guardSlot)] }
    | none =>
      let r2 := actAnt st.world t i Slot.guardSlot st.rolls
      { world := r2.1, rolls := r2.2, trace := st.trace ++ [((t, i), Slot.guardSlot)] }
  else
    let r2 := actAnt st.world t i Slot.regular st.rolls
    { world := r2.1, rolls := r2.2, trace := st.trace ++ [((t, i), Slot.regular)] }

/-- `AntColony.antsAct` with its invocation trace: fold the entry processing
over the snapshot `getAllAnts()`. -/
def AntColony.antsActFull (w : ColonyWorld) (rolls : List ℚ) : SweepState :=
  (AntColony.getAllAnts w.colony).foldl AntColony.runAntEntry
    { world := w, rolls := rolls, trace := [] }

/-- `AntColony.antsAct`. -/
def AntColony.antsAct (w : ColonyWorld) (rolls : List ℚ) : ColonyWorld :=
  (AntColony.antsActFull w rolls).world

/-- `Bee.act`: a blocked bee stings the ant returned by `place.getAnt()`
unless its status is `"cold"`; an unblocked live bee advances one cell
toward the queen unless its status is `"stuck"`; in every case its status
is cleared at the end. -/
def Bee.act (w : ColonyWorld) (b : Nat) : ColonyWorld :=
  match arenaGet w.arena b with
  | none => w
  | some d =>
    let w9 :=
      match findBeePos w.colony b with
      | some (t, i) =>
        match w.colony.getPlace t i with
        | none => w
        | some p =>
          if p.getAnt.isSome then
            if d.status ≠ some "cold" then
              Ant.reduceArmorAt w t i (if p.guard.isSome then Slot.guardSlot else Slot.regular) d.damage
            else w
          else if d.armor > 0 ∧ d.status ≠ some "stuck" then
            let w1 := removeBeeAt w t i b
            if i = 0 then
              { w1 with colony := { w1.colony with queenBees := w1.colony.queenBees ++ [b] } }
            else addBeeAt w1 t (i - 1) b
          else w
      | none => w
    Bee.setStatus w9 b none

/-- `AntColony.beesAct`: fold `Bee.act` over the snapshot `getAllBees()`. -/
def AntColony.beesAct (w : ColonyWorld) : ColonyWorld :=
  (AntColony.getAllBees w.colony).foldl Bee.act w

/-- `AntColony.placesAct`: run the water-terrain effect on every grid
cell. -/
def AntColony.placesAct (w : ColonyWorld) : ColonyWorld :=
  { w with colony :=
      { w.colony with places := w.colony.places.map (fun row => row.map Place.act) } }

/-- The `Hive`: its own bee list (the holding pool), the wave table, and
the armor/damage configuration for the bees it creates. -/
structure Hive where
  bees : List Nat
  waves : List (Nat × List Nat)
  beeArmor : Int
  beeDamage : Int
deriving DecidableEq

/-- The `AntGame` state: the colony, the hive, the bee arena with its
fresh-id counter, and the turn counter. -/
structure GameState where
  colony : AntColony
  hive : Hive
  arena : List (Nat × BeeData)
  nextBee : Nat
  turn : Nat
deriving DecidableEq

/-- `Hive.addWave(attackTurn, numBees)`: create `numBees` fresh bees with
the hive's armor and damage, add them to the hive's bee list, and record
the wave under the turn key (overwriting any wave already stored there). -/
def Hive.addWave (g : GameState) (attackTurn numBees : Nat) : GameState :=
  let ids := (List.range numBees).map (fun j => g.nextBee + j)
  { g with
    arena := g.arena ++ ids.map (fun b => (b, { armor := g.hive.beeArmor, damage := g.hive.beeDamage, status := none }))
    nextBee := g.nextBee + numBees
    hive := { g.hive with
      bees := g.hive.bees ++ ids
      waves := wavesSet g.hive.waves attackTurn ids } }

/-- The colony's bee entrances: the rightmost cell of each tunnel. -/
def AntColony.entrances (c : AntColony) : List (Nat × Nat) :=
  (List.range c.places.length).filterMap (fun t =>
    let len := ((c.places.get? t).getD []).length
    if len > 0 then some (t, len - 1) else none)

/-- Loop body of `Hive.invade`: move each bee of the wave from the hive
pool to the entrance selected by the corresponding random choice.  An empty
entrance list makes the selection throw. -/
def Hive.invadeGo : GameState → List Nat → List Nat → Except Unit GameState
  | g, [], _ => Except.ok g
  | g, b :: rest, choices =>
    match g.colony.entrances.get? (choices.headD 0 % g.colony.entrances.length) with
    | none => Except.error ()
    | some (t, i) =>
      Hive.invadeGo
        { g with
          hive := { g.hive with bees := g.hive.bees.erase b }
          colony := g.colony.setPlaceF t i (fun p => p.addBee b) }
        rest choices.tail

/-- `Hive.invade(colony, currentTurn)`: release the wave recorded for the
current turn, if any; the wave table itself is not modified. -/
def Hive.invade (g : GameState) (currentTurn : Nat) (choices : List Nat) :
    Except Unit GameState :=
  match wavesGet g.hive.waves currentTurn with
  | none => Except.ok g
  | some wave => Hive.invadeGo g wave choices

/-- `AntGame.takeTurn`: the defender sweep, the bee sweep, the terrain
sweep, the hive invasion for the current turn, then the turn counter is
incremented. -/
def AntGame.takeTurn (g : GameState) (rolls : List ℚ) (choices : List Nat) :
    Except Unit GameState :=
  match Hive.invade
      { g with
        colony := (AntColony.placesAct (AntColony.beesAct
          (AntColony.antsAct { colony := g.colony, arena := g.arena } rolls))).colony
        arena := (AntColony.placesAct (AntColony.beesAct
          (AntColony.antsAct { colony := g.colony, arena := g.arena } rolls))).arena }
      g.turn choices with
  | Except.ok g2 => Except.ok { g2 with turn := g2.turn + 1 }
  | Except.error e => Except.error e

/-- `AntGame.gameIsWon`: `false` (lost) when the queen's cell holds a bee;
else `true` (won) when the board and the hive together hold no bee; else
`undefined`. -/
def AntGame.gameIsWon (g : GameState) : Option Bool :=
  if g.colony.queenHasBees then some false
  else if (AntColony.getAllBees g.colony).length + g.hive.bees.length = 0 then some true
  else none

/-- JavaScript `split(",")`, written over the character list so that
concrete coordinate strings evaluate inside the kernel. -/
def splitOnCommaChars : List Char → List (List Char)
  | [] => [[]]
  | c :: cs =>
    if c = ',' then [] :: splitOnCommaChars cs
    else
      match splitOnCommaChars cs with
      | [] => [[c]]
      | h :: t => (c :: h) :: t

/-- `placeCoordinates.split(",")`. -/
def jsSplitComma (s : String) : List String :=
  (splitOnCommaChars s.data).map String.mk

/-- Decimal value of a character list; `none` on any non-digit. -/
def digitsToNat : List Char → Nat → Option Nat
  | [], acc => some acc
  | c :: cs, acc =>
    if ('0' : Char) ≤ c ∧ c ≤ ('9' : Char) then
      digitsToNat cs (acc * 10 + (c.toNat - ('0' : Char).toNat))
    else none

/-- Numeric reading of a string (none when empty or containing a
non-digit), used for the array-index coercion. -/
def jsStrToNat (s : String) : Option Nat :=
  match s.data with
  | [] => none
  | cs => digitsToNat cs 0

/-- JavaScript `toLowerCase()` (character-wise). -/
def jsToLower (s : String) : String :=
  String.mk (s.data.map Char.toLower)

/-- A string used as a JavaScript array index: it hits an element exactly
when it is the canonical decimal representation of a position (a missing
segment is the key `undefined`, which is not one).  A key that is not a
canonical index never hits an element; whether it instead reads a built-in
array property or the value `undefined` is decided by the caller against
`jsArrayPropNames`. -/
def jsIndex (s : Option String) : Option Nat :=
  match s with
  | none => none
  | some str =>
    match jsStrToNat str with
    | some n => if Nat.repr n = str then some n else none
    | none => none

/-- The string-keyed properties a JavaScript array answers besides its
index elements: its own `length` together with the members inherited from
`Array.prototype` and, through it, `Object.prototype`.  Reading one of
these keys on the grid yields a defined non-array value (a number, a
function, or the empty prototype array), on which a further subscript
evaluates to some defined value or `undefined` but never throws — and never
yields an actual cell. -/
def jsArrayPropNames : List String :=
  ["length", "join", "reverse", "sort", "push", "pop", "shift", "unshift",
   "splice", "slice", "concat", "indexOf", "lastIndexOf", "forEach", "map",
   "filter", "reduce", "reduceRight", "some", "every", "find", "findIndex",
   "fill", "copyWithin", "entries", "keys", "values", "includes", "flat",
   "flatMap"] ++ jsObjectPropNames

/-- The grid lookup `this.colony.getPlaces()[coords[0]][coords[1]]` done by
the coordinate commands.  The string is split on the comma.  A row key that
is the canonical decimal index of a tunnel reaches that tunnel; the column
key then either reaches a cell or reads a built-in property of the tunnel
array or `undefined` — values that are not cells and on which every later
member access throws alike (`Except.ok none`).  A row key naming a built-in
array property reads a defined non-array value, whose subscript is likewise
a non-cell value produced without throwing (`Except.ok none`).  Any other
row key (including a canonical index with no tunnel) reads `undefined`, on
which the second subscript itself throws (`Except.error`). -/
def AntGame.lookupPlace (c : AntColony) (placeCoordinates : String) :
    Except Unit (Option (Nat × Nat)) :=
  match jsIndex ((jsSplitComma placeCoordinates).get? 0) with
  | some r =>
    match c.places.get? r with
    | none => Except.error ()
    | some row =>
      match jsIndex ((jsSplitComma placeCoordinates).get? 1) with
      | none => Except.ok none
      | some ci => if ci < row.length then Except.ok (some (r, ci)) else Except.ok none
  | none =>
    if decide (((jsSplitComma placeCoordinates).get? 0).getD "" ∈ jsArrayPropNames) then
      Except.ok none
    else Except.error ()

/-- The ant type switch of `AntGame.deployAnt` (on the lower-cased name). -/
def antTypeOf (antType : String) : Option AntKind :=
  let ty := jsToLower antType
  if ty = "grower" then some AntKind.grower
  else if ty = "thrower" then some AntKind.thrower
  else if ty = "eater" then some AntKind.eater
  else if ty = "scuba" then some AntKind.scuba
  else if ty = "guard" then some AntKind.guard
  else none

/-- `AntGame.deployAnt(antType, placeCoordinates)`: unknown type names fail
first; then the coordinate lookup and the colony deployment run inside the
try/catch that maps any thrown access to `'illegal location'`. -/
def AntGame.deployAnt (g : GameState) (antType placeCoordinates : String) :
    Option String × GameState :=
  match antTypeOf antType with
  | none => (some "unknown ant type", g)
  | some k =>
    match AntGame.lookupPlace g.colony placeCoordinates with
    | Except.error _ => (some "illegal location", g)
    | Except.ok pl =>
      match AntColony.deployAnt g.colony (AntData.new k) pl with
      | Except.error _ => (some "illegal location", g)
      | Except.ok (msg, c2) => (msg, { g with colony := c2 })

/-- `AntGame.removeAnt(placeCoordinates)`. -/
def AntGame.removeAnt (g : GameState) (placeCoordinates : String) :
    Option String × GameState :=
  match AntGame.lookupPlace g.colony placeCoordinates with
  | Except.error _ => (some "illegal location", g)
  | Except.ok none => (some "illegal location", g)
  | Except.ok (some (t, i)) => (none, { g with colony := g.colony.removeAntAt t i })

/-- `AntGame.boostAnt(boostType, placeCoordinates)`. -/
def AntGame.boostAnt (g : GameState) (boostType placeCoordinates : String) :
    Option String × GameState :=
  match AntGame.lookupPlace g.colony placeCoordinates with
  | Except.error _ => (some "illegal location", g)
  | Except.ok pl =>
    match AntColony.applyBoost g.colony boostType pl with
    | Except.error _ => (some "illegal location", g)
    | Except.ok (msg, c2) => (msg, { g with colony := c2 })

/-- One externally driven step of the game: a completed turn (with some
outcome of the injected randomness), one of the three between-turn commands,
or a wave scheduling call. -/
inductive GameStep : GameState → GameState → Prop where
  | takeTurn (g g2 : GameState) (rolls : List ℚ) (choices : List Nat) :
      AntGame.takeTurn g rolls choices = Except.ok g2 → GameStep g g2
  | deploy (g : GameState) (antType placeCoordinates : String) :
      GameStep g (AntGame.deployAnt g antType placeCoordinates).2
  | remove (g : GameState) (placeCoordinates : String) :
      GameStep g (AntGame.removeAnt g placeCoordinates).2
  | boost (g : GameState) (boostType placeCoordinates : String) :
      GameStep g (AntGame.boostAnt g boostType placeCoordinates).2
  | addWave (g : GameState) (attackTurn numBees : Nat) :
      GameStep g (Hive.addWave g attackTurn numBees)

/-- Reachability by any number of game steps. -/
def GameReachable : GameState → GameState → Prop :=
  Relation.ReflTransGen GameStep

/-- Number of regular defenders in a cell. -/
def Place.regularDefenderCount (p : Place) : Nat :=
  if p.ant.isSome then 1 else 0

/-- Number of guard defenders in a cell. -/
def Place.guardDefenderCount (p : Place) : Nat :=
  if p.guard.isSome then 1 else 0

/-- Transcription of the specification wording for `closest_attacker`: visit
distances `0, 1, 2, …` in order and return the earliest-arrived attacker of
the first visited cell whose distance lies in `[minD, maxD]` and which holds
at least one attacker; `none` when no such cell exists along the chain. -/
def specClosestAttacker (chain : List Place) (maxD minD : Nat) : Option Nat :=
  (List.range (maxD + 1)).findSome? (fun d =>
    if minD ≤ d then chain[d]?.bind (fun p => p.bees.head?) else none)

/-- The cell coordinates of a `getAllAnts` entry. -/
def entryPos (e : Nat × Nat × AntData) : Nat × Nat := (e.1, e.2.1)

/-- The two defender slots of the cell at `(t, i)`. -/
def slotsAt (w : ColonyWorld) (t i : Nat) : Option (Option AntData × Option AntData) :=
  (w.colony.getPlace t i).map (fun p => (p.ant, p.guard))

/-- All bee ids stored in the hive's wave table are below the fresh-id
counter (true of every state the game constructs, since `addWave` is the
only creator of bees). -/
def wavesBounded (g : GameState) : Prop :=
  ∀ k wave, wavesGet g.hive.waves k = some wave → ∀ b ∈ wave, b < g.nextBee

/-- The bee `b` is stranded in the hive pool: it is in the hive's bee list,
in no recorded wave, and below the fresh-id counter. -/
def orphanInv (b : Nat) (g : GameState) : Prop :=
  b ∈ g.hive.bees ∧ (∀ k wave, wavesGet g.hive.waves k = some wave → b ∉ wave) ∧ b < g.nextBee

/-- An empty hive configured with bee armor 3 and damage 1. -/
def exHive0 : Hive := { bees := [], waves := [], beeArmor := 3, beeDamage := 1 }

/-- A game state around a given colony, with no bee created yet. -/
def exGame (c : AntColony) : GameState :=
  { colony := c, hive := exHive0, arena := [], nextBee := 0, turn := 0 }

/-- A colony with no bee anywhere: the game is won. -/
def exGameWon : GameState := exGame (AntColony.init 2 1 2)

/-- A game state with a bee sitting in the queen cell. -/
def exGameLost : GameState :=
  { exGameWon with
    colony := { AntColony.init 2 1 2 with queenBees := [0] }
    arena := [(0, { armor := 3, damage := 1, status := none })]
    nextBee := 1 }

/-- A game state with the queen clear but a bee still in the hive. -/
def exGameUndecided : GameState :=
  { exGameWon with
    hive := { exHive0 with bees := [0] }
    arena := [(0, { armor := 3, damage := 1, status := none })]
    nextBee := 1 }

/-- A 1-tunnel colony with a Thrower deployed at cell (0,0). -/
def exColonyC3 : AntColony :=
  (AntColony.init 10 1 2).setPlaceF 0 0
    (fun p => { p with ant := some (AntData.new AntKind.thrower) })

/-- The occupied cell of `exColonyC3`. -/
def exPlaceC3 : Place :=
  { water := false, ant := some (AntData.new AntKind.thrower), guard := none, bees := [] }

/-- A boosted Thrower at (0,0) with a bee (id 9) at distance 3. -/
def exThrowWorld : ColonyWorld :=
  { colony :=
      ((AntColony.init 0 1 5).setPlaceF 0 3 (fun p => p.addBee 9)).setPlaceF 0 0
        (fun p => { p with ant := some { AntData.new AntKind.thrower with boost := some "StickyLeaf" } })
    arena := [(9, { armor := 3, damage := 1, status := none })] }

/-- A boosted Thrower at (0,0) whose only bee (id 9) sits at distance 4,
out of the unboosted range. -/
def exThrowWorldFar : ColonyWorld :=
  { colony :=
      ((AntColony.init 0 1 5).setPlaceF 0 4 (fun p => p.addBee 9)).setPlaceF 0 0
        (fun p => { p with ant := some { AntData.new AntKind.thrower with boost := some "StickyLeaf" } })
    arena := [(9, { armor := 3, damage := 1, status := none })] }

/-- An Eater at (0,0) sharing its cell with a bee (id 5). -/
def exEaterWorld : ColonyWorld :=
  { colony :=
      ((AntColony.init 0 1 2).setPlaceF 0 0 (fun p => p.addBee 5)).setPlaceF 0 0
        (fun p => { p with ant := some (AntData.new AntKind.eater) })
    arena := [(5, { armor := 3, damage := 1, status := none })] }

/-- An Eater at (0,0) that has just swallowed bee 5 (counter 1). -/
def exEaterFed : ColonyWorld :=
  { colony :=
      (AntColony.init 0 1 2).setPlaceF 0 0
        (fun p => { p with ant := some { AntData.new AntKind.eater with turnsEating := 1, stomach := [5] } })
    arena := [(5, { armor := 3, damage := 1, status := none })] }

/-- A cell holding both a Guard and a (shielded) Thrower. -/
def exGuardedWorld : ColonyWorld :=
  { colony :=
      (AntColony.init 20 1 3).setPlaceF 0 0
        (fun p => { p with ant := some (AntData.new AntKind.thrower)
                           guard := some (AntData.new AntKind.guard) })
    arena := [] }

/-- A 1-tunnel, 2-cell game with zero food. -/
def exGamePoor : GameState := exGame { AntColony.init 0 1 2 with food := 0 }

/-- A 1-tunnel, 2-cell game with 10 food, no wave scheduled yet. -/
def exGameFresh : GameState := exGame (AntColony.init 10 1 2)

/-- A 1-tunnel, 6-cell colony with a single bee (id 7) at distance `d`
from cell (0,0). -/
def exColonyBeeAt (d : Nat) : AntColony :=
  (AntColony.init 0 1 6).setPlaceF 0 d (fun p => p.addBee 7)

theorem updAt_get_self (l : List α) (n : Nat) (f : α → α) :
    (updAt l n f)[n]? = l[n]?.map f := by
  induction l generalizing n with
  | nil => simp [updAt]
  | cons x xs ih =>
    cases n with
    | zero => simp [updAt]
    | succ m => simpa [updAt] using ih m

theorem updAt_get_ne (l : List α) (n m : Nat) (f : α → α) (h : m ≠ n) :
    (updAt l n f)[m]? = l[m]? := by
  induction l generalizing n m with
  | nil => simp [updAt]
  | cons x xs ih =>
    cases n with
    | zero =>
      cases m with
      | zero => exact absurd rfl h
      | succ k => simp [updAt]
    | succ n2 =>
      cases m with
      | zero => simp [updAt]
      | succ k => simpa [updAt] using ih n2 k (fun hk => h (by omega))

theorem getPlace_setPlaceF_self (c : AntColony) (t i : Nat) (f : Place → Place) :
    (c.setPlaceF t i f).getPlace t i = (c.getPlace t i).map f := by
  unfold AntColony.setPlaceF AntColony.getPlace
  simp only [List.get?_eq_getElem?, updAt_get_self]
  cases h : c.places[t]? with
  | none => simp
  | some row => simp [updAt_get_self]

theorem getPlace_setPlaceF_ne (c : AntColony) (t i t2 i2 : Nat) (f : Place → Place)
    (h : (t, i) ≠ (t2, i2)) :
    (c.setPlaceF t2 i2 f).getPlace t i = c.getPlace t i := by
  unfold AntColony.setPlaceF AntColony.getPlace
  by_cases ht : t = t2
  · subst ht
    have hi : i ≠ i2 := fun hi => h (by simp [hi])
    simp only [List.get?_eq_getElem?, updAt_get_self]
    cases hr : c.places[t]? with
    | none => simp
    | some row => simp [updAt_get_ne row i2 i f hi]
  · simp [List.get?_eq_getElem?, updAt_get_ne c.places t2 t _ ht]

/-- C2: `outcome()` reports lost exactly when the queen's cell holds at
least one attacker (regardless of counts elsewhere); otherwise won exactly
when board and hive both hold zero attackers; otherwise undecided.  The
loss branch is evaluated first. -/
theorem gameIsWon_outcome (g : GameState) :
    (g.colony.queenBees ≠ [] → AntGame.gameIsWon g = some false) ∧
    (g.colony.queenBees = [] →
      (AntColony.getAllBees g.colony).length + g.hive.bees.length = 0 →
      AntGame.gameIsWon g = some true) ∧
    (g.colony.queenBees = [] →
      (AntColony.getAllBees g.colony).length + g.hive.bees.length ≠ 0 →
      AntGame.gameIsWon g = none) := by
  unfold AntGame.gameIsWon AntColony.queenHasBees
  refine ⟨fun h => ?_, fun h1 h2 => ?_, fun h1 h2 => ?_⟩
  · have hl : 0 < g.colony.queenBees.length := List.length_pos.mpr h
    simp [hl]
  · simp [h1, h2]
  · simp [h1, h2]

theorem gameIsWon_outcome_witness :
    AntGame.gameIsWon exGameLost = some false ∧
    AntGame.gameIsWon exGameWon = some true ∧
    AntGame.gameIsWon exGameUndecided = none :=
  ⟨(gameIsWon_outcome exGameLost).1 (by decide),
   (gameIsWon_outcome exGameWon).2.1 (by decide) (by decide),
   (gameIsWon_outcome exGameUndecided).2.2 (by decide) (by decide)⟩

/-- C3: deployment with too little food fails with the insufficient-food
result leaving the colony (food and board) unchanged; with sufficient food
into an occupied matching slot it fails with the occupied result leaving the
colony unchanged; on success the defender is placed and food is debited by
exactly its cost.  The last conjunct identifies slot failure with the
matching slot being occupied. -/
theorem deployAnt_food_and_occupancy (c : AntColony) (a : AntData) (t i : Nat) (p : Place)
    (hp : c.getPlace t i = some p) :
    (c.food < a.foodCost →
      AntColony.deployAnt c a (some (t, i)) = Except.ok (some "not enough food", c)) ∧
    (a.foodCost ≤ c.food → (Place.addAnt p a).1 = false →
      AntColony.deployAnt c a (some (t, i)) = Except.ok (some "tunnel already occupied", c)) ∧
    (a.foodCost ≤ c.food → (Place.addAnt p a).1 = true →
      AntColony.deployAnt c a (some (t, i)) =
        Except.ok (none,
          { c.setPlaceF t i (fun _ => (Place.addAnt p a).2) with food := c.food - a.foodCost })) ∧
    ((Place.addAnt p a).1 = false ↔
      (if a.kind = AntKind.guard then p.guard.isSome else p.ant.isSome) = true) := by
  refine ⟨fun h => ?_, fun h1 h2 => ?_, fun h1 h2 => ?_, ?_⟩
  · have : ¬ a.foodCost ≤ c.food := by omega
    simp [AntColony.deployAnt, this]
  · simp [AntColony.deployAnt, h1, hp, h2]
  · simp [AntColony.deployAnt, h1, hp, h2]
  · unfold Place.addAnt
    by_cases hk : a.kind = AntKind.guard
    · cases hg : p.guard <;> simp [hk, hg]
    · cases hA : p.ant <;> simp [hk, hA]

theorem deployAnt_food_and_occupancy_witness :
    AntColony.deployAnt { exColonyC3 with food := 0 } (AntData.new AntKind.thrower) (some (0, 0)) =
      Except.ok (some "not enough food", { exColonyC3 with food := 0 }) ∧
    AntColony.deployAnt exColonyC3 (AntData.new AntKind.thrower) (some (0, 0)) =
      Except.ok (some "tunnel already occupied", exColonyC3) ∧
    AntColony.deployAnt exColonyC3 (AntData.new AntKind.thrower) (some (0, 1)) =
      Except.ok (none,
        { exColonyC3.setPlaceF 0 1
            (fun _ => (Place.addAnt { water := false, ant := none, guard := none, bees := [] }
              (AntData.new AntKind.thrower)).2) with
          food := exColonyC3.food - (AntData.new AntKind.thrower).foodCost }) :=
  ⟨(deployAnt_food_and_occupancy { exColonyC3 with food := 0 }
      (AntData.new AntKind.thrower) 0 0 exPlaceC3 (by decide)).1 (by decide),
   (deployAnt_food_and_occupancy exColonyC3
      (AntData.new AntKind.thrower) 0 0 exPlaceC3 (by decide)).2.1 (by decide) (by decide),
   (deployAnt_food_and_occupancy exColonyC3
      (AntData.new AntKind.thrower) 0 1 { water := false, ant := none, guard := none, bees := [] }
      (by decide)).2.2.1 (by decide) (by decide)⟩

theorem setBoostOnGetAnt_getAnt (p : Place) (a : AntData) (boost : String)
    (ha : p.getAnt = some a) :
    (p.setBoostOnGetAnt boost).getAnt = some { a with boost := some boost } := by
  unfold Place.setBoostOnGetAnt
  unfold Place.getAnt at ha ⊢
  cases hg : p.guard with
  | some g => rw [hg] at ha; simp at ha; simp [ha]
  | none =>
    rw [hg] at ha
    simp at ha
    cases hA : p.ant with
    | some a2 => rw [hA] at ha; simp at ha; simp [hg, ha]
    | none => rw [hA] at ha; simp at ha

/-- C6 (amended): the unknown-boost failure fires exactly when the boost
name is an own inventory entry with count zero, or is absent from the
inventory and is not one of the member names inherited from
`Object.prototype`; a prototype-inherited name such as `constructor` passes
the inventory check even with no inventory entry.  When the check passes,
an empty target cell fails with the no-defender result, and otherwise the
name is set as the active boost of the defender returned by `getAnt` while
every inventory count is left unchanged (nothing is decremented on
apply). -/
theorem applyBoost_semantics (c : AntColony) (boost : String) (t i : Nat) (p : Place)
    (hp : c.getPlace t i = some p) :
    (c.boostMissing boost = true ↔
      boostsGet c.boosts boost = some 0 ∨
      (boostsGet c.boosts boost = none ∧ boost ∉ jsObjectPropNames)) ∧
    (c.boostMissing boost = true →
      ∀ pl, AntColony.applyBoost c boost pl = Except.ok (some "no such boost", c)) ∧
    (c.boostMissing boost = false → p.getAnt = none →
      AntColony.applyBoost c boost (some (t, i)) = Except.ok (some "no Ant at location", c)) ∧
    (∀ a, c.boostMissing boost = false → p.getAnt = some a →
      AntColony.applyBoost c boost (some (t, i)) =
        Except.ok (none, c.setPlaceF t i (fun q => q.setBoostOnGetAnt boost)) ∧
      (c.setPlaceF t i (fun q => q.setBoostOnGetAnt boost)).boosts = c.boosts ∧
      (c.setPlaceF t i (fun q => q.setBoostOnGetAnt boost)).getPlace t i =
        some (p.setBoostOnGetAnt boost) ∧
      (p.setBoostOnGetAnt boost).getAnt = some { a with boost := some boost }) := by
  refine ⟨?_, fun h pl => ?_, fun h hA => ?_, fun a h hA => ?_⟩
  · unfold AntColony.boostMissing
    cases hg : boostsGet c.boosts boost with
    | none => simp
    | some n => simp
  · simp [AntColony.applyBoost, h]
  · simp [AntColony.applyBoost, h, hp, hA]
  · refine ⟨by simp [AntColony.applyBoost, h, hp, hA], rfl, ?_, setBoostOnGetAnt_getAnt p a boost hA⟩
    rw [getPlace_setPlaceF_self, hp]
    rfl

theorem applyBoost_semantics_counterexample :
    boostsGet exColonyC3.boosts "constructor" = none ∧
    AntColony.applyBoost exColonyC3 "constructor" (some (0, 0)) =
      Except.ok (none, exColonyC3.setPlaceF 0 0 (fun q => q.setBoostOnGetAnt "constructor")) ∧
    (AntColony.applyBoost exColonyC3 "constructor" (some (0, 0)) ≠
      Except.ok (some "no such boost", exColonyC3)) := by
  refine ⟨rfl, rfl, fun h => ?_⟩
  have h2 : (Except.ok (none, exColonyC3.setPlaceF 0 0 (fun q => q.setBoostOnGetAnt "constructor")) :
      Except Unit (Option String × AntColony)) = Except.ok (some "no such boost", exColonyC3) := h
  simp at h2

theorem applyBoost_semantics_witness :
    AntColony.applyBoost exColonyC3 "BugSpray" (some (0, 0)) =
      Except.ok (some "no such boost", exColonyC3) ∧
    AntColony.applyBoost exColonyC3 "Nectar" (some (0, 0)) =
      Except.ok (some "no such boost", exColonyC3) ∧
    AntColony.applyBoost exColonyC3 "FlyingLeaf" (some (0, 1)) =
      Except.ok (some "no Ant at location", exColonyC3) ∧
    AntColony.applyBoost exColonyC3 "FlyingLeaf" (some (0, 0)) =
      Except.ok (none, exColonyC3.setPlaceF 0 0 (fun q => q.setBoostOnGetAnt "FlyingLeaf")) ∧
    AntColony.applyBoost exColonyC3 "constructor" (some (0, 0)) =
      Except.ok (none, exColonyC3.setPlaceF 0 0 (fun q => q.setBoostOnGetAnt "constructor")) :=
  ⟨(applyBoost_semantics exColonyC3 "BugSpray" 0 0 exPlaceC3 (by decide)).2.1 (by decide)
      (some (0, 0)),
   (applyBoost_semantics exColonyC3 "Nectar" 0 0 exPlaceC3 (by decide)).2.1 (by decide)
      (some (0, 0)),
   (applyBoost_semantics exColonyC3 "FlyingLeaf" 0 1
      { water := false, ant := none, guard := none, bees := [] } (by decide)).2.2.1
      (by decide) (by decide),
   ((applyBoost_semantics exColonyC3 "FlyingLeaf" 0 0 exPlaceC3 (by decide)).2.2.2
      (AntData.new AntKind.thrower) (by decide) (by decide)).1,
   ((applyBoost_semantics exColonyC3 "constructor" 0 0 exPlaceC3 (by decide)).2.2.2
      (AntData.new AntKind.thrower) (by decide) (by decide)).1⟩

/-- C8: every cell holds at most one regular defender and at most one guard
defender in every reachable state, with a non-negative attacker count;
`addAnt` refuses to overwrite an occupied matching slot (leaving the cell
unchanged), and `addBee` always grows the attacker count by one (it is
unbounded). -/
theorem occupancy_invariant :
    (∀ (g g2 : GameState), GameReachable g g2 → ∀ t i p, g2.colony.getPlace t i = some p →
      p.regularDefenderCount ≤ 1 ∧ p.guardDefenderCount ≤ 1 ∧ 0 ≤ p.bees.length) ∧
    (∀ (p : Place) (a : AntData), a.kind = AntKind.guard → p.guard.isSome →
      Place.addAnt p a = (false, p)) ∧
    (∀ (p : Place) (a : AntData), a.kind ≠ AntKind.guard → p.ant.isSome →
      Place.addAnt p a = (false, p)) ∧
    (∀ (p : Place) (b : Nat), (p.addBee b).bees.length = p.bees.length + 1) := by
  refine ⟨fun g g2 _ t i p _ => ⟨?_, ?_, Nat.zero_le _⟩, fun p a hk hg => ?_, fun p a hk hA => ?_,
    fun p b => by simp [Place.addBee]⟩
  · unfold Place.regularDefenderCount
    split <;> omega
  · unfold Place.guardDefenderCount
    split <;> omega
  · unfold Place.addAnt
    rw [Option.isSome_iff_exists] at hg
    obtain ⟨g2, hg2⟩ := hg
    simp [hk, hg2]
  · unfold Place.addAnt
    rw [Option.isSome_iff_exists] at hA
    obtain ⟨a2, hA2⟩ := hA
    simp [hk, hA2]

theorem occupancy_invariant_witness :
    (exGuardedWorld.colony.getPlace 0 0).elim 0 Place.regularDefenderCount ≤ 1 ∧
    Place.addAnt { water := false, ant := none, guard := some (AntData.new AntKind.guard), bees := [] }
        (AntData.new AntKind.guard) =
      (false, { water := false, ant := none, guard := some (AntData.new AntKind.guard), bees := [] }) := by
  constructor
  · have h := (occupancy_invariant.1 exGameFresh exGameFresh Relation.ReflTransGen.refl 0 0
      { water := false, ant := none, guard := none, bees := [] } (by decide)).1
    decide
  · exact occupancy_invariant.2.1
      { water := false, ant := none, guard := some (AntData.new AntKind.guard), bees := [] }
      (AntData.new AntKind.guard) (by decide) (by decide)

theorem findSomeCongr {α β : Type} (f g : α → Option β) (l : List α)
    (h : ∀ x ∈ l, f x = g x) : l.findSome? f = l.findSome? g := by
  induction l with
  | nil => simp
  | cons a as ih =>
    rw [List.findSome?_cons, List.findSome?_cons, h a (by simp)]
    cases hga : g a with
    | some b => simp
    | none =>
      simp only []
      exact ih (fun x hx => h x (by simp [hx]))

theorem getClosestBeeGo_eq_spec (maxD minD : Nat) :
    ∀ (chain : List Place) (dist : Nat),
      Place.getClosestBeeGo chain dist maxD minD =
        (List.range' dist (maxD + 1 - dist)).findSome? (fun d =>
          if minD ≤ d then chain[d - dist]?.bind (fun p => p.bees.head?) else none) := by
  intro chain
  induction chain with
  | nil =>
    intro dist
    have h0 : Place.getClosestBeeGo [] dist maxD minD = none := rfl
    rw [h0]
    symm
    rw [List.findSome?_eq_none_iff]
    intro x _
    split <;> simp
  | cons p rest ih =>
    intro dist
    have hGo : Place.getClosestBeeGo (p :: rest) dist maxD minD =
        if dist ≤ maxD then
          (if minD ≤ dist ∧ p.bees ≠ [] then p.bees.head?
           else Place.getClosestBeeGo rest (dist + 1) maxD minD)
        else none := rfl
    rw [hGo]
    by_cases hd : dist ≤ maxD
    · rw [if_pos hd]
      have hn : maxD + 1 - dist = (maxD - dist) + 1 := by omega
      rw [hn, List.range'_succ]
      simp only [List.findSome?_cons]
      have hdd : dist - dist = 0 := Nat.sub_self dist
      have hstep : maxD + 1 - (dist + 1) = maxD - dist := by omega
      have hcong : ∀ d ∈ List.range' (dist + 1) (maxD - dist),
          (if minD ≤ d then rest[d - (dist + 1)]?.bind (fun q => q.bees.head?) else none) =
          (if minD ≤ d then (p :: rest)[d - dist]?.bind (fun q => q.bees.head?) else none) := by
        intro d hd2
        rw [List.mem_range'] at hd2
        obtain ⟨j, _, hj⟩ := hd2
        have h1 : d - dist = (d - (dist + 1)) + 1 := by omega
        rw [h1]
        simp
      by_cases hmin : minD ≤ dist
      · by_cases hb : p.bees = []
        · rw [if_neg (fun hc => hc.2 hb)]
          have hf : (if minD ≤ dist then (p :: rest)[dist - dist]?.bind (fun q => q.bees.head?) else none) = none := by
            simp [hmin, hdd, hb]
          rw [hf, ih (dist + 1), hstep]
          exact findSomeCongr _ _ _ hcong
        · rw [if_pos ⟨hmin, hb⟩]
          have hf : (if minD ≤ dist then (p :: rest)[dist - dist]?.bind (fun q => q.bees.head?) else none) = p.bees.head? := by
            simp [hmin, hdd]
          rw [hf]
          cases hbb : p.bees with
          | nil => exact absurd hbb hb
          | cons y ys => simp [hbb]
      · rw [if_neg (fun hc => hmin hc.1)]
        have hf : (if minD ≤ dist then (p :: rest)[dist - dist]?.bind (fun q => q.bees.head?) else none) = none := by
          simp [hmin]
        rw [hf, ih (dist + 1), hstep]
        exact findSomeCongr _ _ _ hcong
    · rw [if_neg hd]
      have hn : maxD + 1 - dist = 0 := by omega
      rw [hn]
      simp

/-- C9: `closest_attacker(max, min)` walks the backward chain at distances
0, 1, 2, … and returns the earliest-arrived attacker of the first visited
cell whose distance lies in `[min, max]` and which holds an attacker, and
`none` when no such cell exists; in particular, with maximum distance 3 an
attacker at distance exactly 3 is found and one at distance 4 is not. -/
theorem getClosestBee_matches_spec :
    (∀ (chain : List Place) (maxD minD : Nat),
      Place.getClosestBee chain maxD minD = specClosestAttacker chain maxD minD) ∧
    Place.getClosestBee ((exColonyBeeAt 3).chainFrom 0 0) 3 = some 7 ∧
    Place.getClosestBee ((exColonyBeeAt 4).chainFrom 0 0) 3 = none := by
  refine ⟨fun chain maxD minD => ?_, by decide, by decide⟩
  unfold Place.getClosestBee specClosestAttacker
  rw [List.range_eq_range', getClosestBeeGo_eq_spec maxD minD chain 0]
  apply findSomeCongr
  intro d _
  simp

theorem slotsAt_of_places_eq (w2 w : ColonyWorld) (h : w2.colony.places = w.colony.places)
    (t i : Nat) : slotsAt w2 t i = slotsAt w t i := by
  unfold slotsAt AntColony.getPlace
  rw [h]

theorem slotsAt_setPlaceF_beesOnly (w : ColonyWorld) (ar : List (Nat × BeeData)) (t2 i2 : Nat)
    (f : Place → Place) (hf : ∀ p, (f p).ant = p.ant ∧ (f p).guard = p.guard) (t i : Nat) :
    slotsAt { colony := w.colony.setPlaceF t2 i2 f, arena := ar } t i = slotsAt w t i := by
  unfold slotsAt
  by_cases hpos : (t, i) = (t2, i2)
  · have ht : t = t2 := congrArg Prod.fst hpos
    have hi : i = i2 := congrArg Prod.snd hpos
    subst ht
    subst hi
    show ((w.colony.setPlaceF t i f).getPlace t i).map _ = _
    rw [getPlace_setPlaceF_self]
    cases hp : w.colony.getPlace t i with
    | none => simp
    | some p => simp [(hf p).1, (hf p).2]
  · show ((w.colony.setPlaceF t2 i2 f).getPlace t i).map _ = _
    rw [getPlace_setPlaceF_ne _ _ _ _ _ _ hpos]

theorem slotsAt_addBeeAt (w : ColonyWorld) (t2 i2 : Nat) (b : Nat) (t i : Nat) :
    slotsAt (addBeeAt w t2 i2 b) t i = slotsAt w t i :=
  slotsAt_setPlaceF_beesOnly w w.arena t2 i2 (fun p => p.addBee b) (fun p => ⟨rfl, rfl⟩) t i

theorem slotsAt_removeBeeAt (w : ColonyWorld) (t2 i2 : Nat) (b : Nat) (t i : Nat) :
    slotsAt (removeBeeAt w t2 i2 b) t i = slotsAt w t i :=
  slotsAt_setPlaceF_beesOnly w w.arena t2 i2 (fun p => p.removeBee b) (fun p => ⟨rfl, rfl⟩) t i

theorem slotsAt_setStatus (w : ColonyWorld) (b : Nat) (st : Option String) (t i : Nat) :
    slotsAt (Bee.setStatus w b st) t i = slotsAt w t i := by
  unfold Bee.setStatus
  cases arenaGet w.arena b with
  | none => rfl
  | some d => exact slotsAt_of_places_eq _ w rfl t i

theorem slotsAt_reduceArmorBee (w : ColonyWorld) (b : Nat) (amount : Int) (t i : Nat) :
    slotsAt (Bee.reduceArmor w b amount) t i = slotsAt w t i := by
  unfold Bee.reduceArmor
  cases arenaGet w.arena b with
  | none => rfl
  | some d =>
    simp only []
    split
    · split
      all_goals first
        | exact slotsAt_of_places_eq _ w rfl t i
        | (rw [slotsAt_removeBeeAt]; exact slotsAt_of_places_eq _ w rfl t i)
        | (split <;> exact slotsAt_of_places_eq _ w rfl t i)
    · exact slotsAt_of_places_eq _ w rfl t i

theorem antAt_eq_of_slotsAt (w2 w : ColonyWorld) (t i : Nat)
    (h : slotsAt w2 t i = slotsAt w t i) (slot : Slot) :
    antAt w2 t i slot = antAt w t i slot := by
  unfold slotsAt at h
  unfold antAt
  cases h2 : w2.colony.getPlace t i with
  | none =>
    rw [h2] at h
    cases h1 : w.colony.getPlace t i with
    | none => simp
    | some p => rw [h1] at h; simp at h
  | some p2 =>
    rw [h2] at h
    cases h1 : w.colony.getPlace t i with
    | none => rw [h1] at h; simp at h
    | some p1 =>
      rw [h1] at h
      simp at h
      obtain ⟨hA, hG⟩ := h
      cases slot <;> simp [hA, hG]

theorem antAt_setAntAt_self (w : ColonyWorld) (t i : Nat) (slot : Slot) (a : AntData)
    (p : Place) (hp : w.colony.getPlace t i = some p) :
    antAt (setAntAt w t i slot a) t i slot = some a := by
  unfold antAt setAntAt
  simp only []
  rw [getPlace_setPlaceF_self, hp]
  cases slot <;> simp

theorem slotsAt_ite_setStatus (c : Prop) [Decidable c] (w : ColonyWorld) (x : Nat)
    (s : Option String) (t i : Nat) :
    slotsAt (if c then Bee.setStatus w x s else w) t i = slotsAt w t i := by
  split
  · exact slotsAt_setStatus w x s t i
  · rfl

/-- C4: for a Thrower or Scuba whose active boost is not BugSpray, executing
its act clears the boost exactly when a target attacker is found within the
search range (5 under FlyingLeaf, 3 otherwise); when no target is found the
whole state — the boost included — is left unchanged, so the boost persists
to later turns. -/
theorem thrower_scuba_boost_clearing (w : ColonyWorld) (t i : Nat) (slot : Slot)
    (rolls : List ℚ) (a : AntData)
    (ha : antAt w t i slot = some a)
    (hk : a.kind = AntKind.thrower ∨ a.kind = AntKind.scuba)
    (hb : a.boost ≠ some "BugSpray") :
    actAnt w t i slot rolls = (ThrowerAnt.act w t i slot, rolls) ∧
    (∀ target, Place.getClosestBee (w.colony.chainFrom t i)
        (if a.boost = some "FlyingLeaf" then 5 else 3) = some target →
      antAt (ThrowerAnt.act w t i slot) t i slot = some { a with boost := none }) ∧
    (Place.getClosestBee (w.colony.chainFrom t i)
        (if a.boost = some "FlyingLeaf" then 5 else 3) = none →
      ThrowerAnt.act w t i slot = w) := by
  refine ⟨?_, fun target ht => ?_, fun ht => ?_⟩
  · rcases hk with hk | hk <;> simp [actAnt, ha, hk, ScubaAnt.act]
  · simp only [ThrowerAnt.act, ha, ht]
    rw [if_pos hb]
    set W1 := Bee.reduceArmor w target 1 with hW1
    set W2 := if a.boost = some "StickyLeaf" then Bee.setStatus W1 target (some "stuck") else W1 with hW2
    set W3 := if a.boost = some "IcyLeaf" then Bee.setStatus W2 target (some "cold") else W2 with hW3
    have hs : slotsAt W3 t i = slotsAt w t i := by
      rw [hW3, slotsAt_ite_setStatus, hW2, slotsAt_ite_setStatus, hW1, slotsAt_reduceArmorBee]
    have ha3 : antAt W3 t i slot = some a :=
      (antAt_eq_of_slotsAt W3 w t i hs slot).trans ha
    rw [ha3]
    have hp3 : ∃ p3, W3.colony.getPlace t i = some p3 := by
      unfold antAt at ha3
      cases hgp : W3.colony.getPlace t i with
      | none => rw [hgp] at ha3; simp at ha3
      | some p3 => exact ⟨p3, rfl⟩
    obtain ⟨p3, hp3⟩ := hp3
    exact antAt_setAntAt_self W3 t i slot _ p3 hp3
  · simp [ThrowerAnt.act, ha, hb, ht]

theorem thrower_scuba_boost_clearing_witness :
    antAt (ThrowerAnt.act exThrowWorld 0 0 Slot.regular) 0 0 Slot.regular =
      some { AntData.new AntKind.thrower with boost := none } ∧
    ThrowerAnt.act exThrowWorldFar 0 0 Slot.regular = exThrowWorldFar := by
  constructor
  · exact (thrower_scuba_boost_clearing exThrowWorld 0 0 Slot.regular []
      { AntData.new AntKind.thrower with boost := some "StickyLeaf" }
      (by decide) (Or.inl (by decide)) (by decide)).2.1 9 (by decide)
  · exact (thrower_scuba_boost_clearing exThrowWorldFar 0 0 Slot.regular []
      { AntData.new AntKind.thrower with boost := some "StickyLeaf" }
      (by decide) (Or.inl (by decide)) (by decide)).2.2 (by decide)

theorem updAt_updAt (l : List α) (n : Nat) (f g : α → α) :
    updAt (updAt l n f) n g = updAt l n (fun x => g (f x)) := by
  induction l generalizing n with
  | nil => rfl
  | cons x xs ih =>
    cases n with
    | zero => rfl
    | succ m => simp [updAt, ih m]

theorem updAt_id_of_get (l : List α) (n : Nat) (f : α → α)
    (h : ∀ x, l[n]? = some x → f x = x) : updAt l n f = l := by
  induction l generalizing n with
  | nil => rfl
  | cons x xs ih =>
    cases n with
    | zero => simp [updAt, h x (by simp)]
    | succ m =>
      simp only [updAt, List.cons.injEq, true_and]
      exact ih m (fun y hy => h y (by simpa using hy))

theorem setPlaceF_setPlaceF (c : AntColony) (t i : Nat) (f g : Place → Place) :
    (c.setPlaceF t i f).setPlaceF t i g = c.setPlaceF t i (fun p => g (f p)) := by
  unfold AntColony.setPlaceF
  simp only [updAt_updAt]

theorem setPlaceF_id (c : AntColony) (t i : Nat) (f : Place → Place)
    (h : ∀ p, c.getPlace t i = some p → f p = p) : c.setPlaceF t i f = c := by
  unfold AntColony.setPlaceF
  have hu : updAt c.places t (fun row => updAt row i f) = c.places := by
    apply updAt_id_of_get
    intro row hrow
    apply updAt_id_of_get
    intro p hp
    apply h
    unfold AntColony.getPlace
    simp [List.get?_eq_getElem?, hrow, hp]
  rw [hu]

theorem setAntAt_setAntAt (w : ColonyWorld) (t i : Nat) (slot : Slot) (a1 a2 : AntData) :
    setAntAt (setAntAt w t i slot a1) t i slot a2 = setAntAt w t i slot a2 := by
  unfold setAntAt
  simp only [setPlaceF_setPlaceF]
  congr 1
  congr 1
  funext p
  cases slot <;> rfl

theorem setAntAt_eq_self (w : ColonyWorld) (t i : Nat) (slot : Slot) (a : AntData)
    (ha : antAt w t i slot = some a) : setAntAt w t i slot a = w := by
  unfold antAt at ha
  cases hgp : w.colony.getPlace t i with
  | none => rw [hgp] at ha; simp at ha
  | some p =>
    rw [hgp] at ha
    simp only [Option.some_bind] at ha
    cases slot with
    | regular =>
      have hpa : p.ant = some a := ha
      unfold setAntAt
      have hc : (w.colony.setPlaceF t i fun q => { q with ant := some a }) = w.colony := by
        apply setPlaceF_id
        intro q hq
        rw [hgp] at hq
        injection hq with hq2
        subst hq2
        rw [← hpa]
      show ({ colony := w.colony.setPlaceF t i fun q => { q with ant := some a },
              arena := w.arena } : ColonyWorld) = w
      rw [hc]
    | guardSlot =>
      have hpa : p.guard = some a := ha
      unfold setAntAt
      have hc : (w.colony.setPlaceF t i fun q => { q with guard := some a }) = w.colony := by
        apply setPlaceF_id
        intro q hq
        rw [hgp] at hq
        injection hq with hq2
        subst hq2
        rw [← hpa]
      show ({ colony := w.colony.setPlaceF t i fun q => { q with guard := some a },
              arena := w.arena } : ColonyWorld) = w
      rw [hc]

theorem eaterAct_increment (w : ColonyWorld) (t i : Nat) (slot : Slot) (a : AntData)
    (ha : antAt w t i slot = some a) (h1 : 1 ≤ a.turnsEating) (h3 : a.turnsEating ≤ 3) :
    EaterAnt.act w t i slot = setAntAt w t i slot { a with turnsEating := a.turnsEating + 1 } := by
  simp only [EaterAnt.act, ha]
  rw [if_neg (by omega), if_neg (by omega)]

theorem eaterAct_release (w : ColonyWorld) (t i : Nat) (slot : Slot) (a : AntData)
    (ha : antAt w t i slot = some a) (hgt : a.turnsEating > 3) :
    EaterAnt.act w t i slot =
      setAntAt w t i slot { a with stomach := a.stomach.tail, turnsEating := 0 } := by
  simp only [EaterAnt.act, ha]
  rw [if_neg (by omega), if_pos hgt]

theorem eaterAct_swallow (w : ColonyWorld) (t i : Nat) (slot : Slot) (a : AntData) (b : Nat)
    (p : Place) (ha : antAt w t i slot = some a) (h0 : a.turnsEating = 0)
    (hp : w.colony.getPlace t i = some p) (hhead : p.bees.head? = some b) :
    EaterAnt.act w t i slot =
      setAntAt (removeBeeAt w t i b) t i slot
        { a with stomach := a.stomach ++ [b], turnsEating := 1 } := by
  have hchain : Place.getClosestBee (w.colony.chainFrom t i) 0 = some b := by
    unfold Place.getClosestBee AntColony.chainFrom
    unfold AntColony.getPlace at hp
    cases hrow : w.colony.places.get? t with
    | none => rw [hrow] at hp; simp at hp
    | some row =>
      rw [hrow] at hp
      simp only [Option.some_bind] at hp
      have hdrop : (row.drop i).head? = some p := by
        rw [List.head?_drop, ← List.get?_eq_getElem?]
        exact hp
      simp only [Option.getD_some]
      cases hd : row.drop i with
      | nil => rw [hd] at hdrop; simp at hdrop
      | cons q rest =>
        rw [hd] at hdrop
        simp only [List.head?_cons, Option.some.injEq] at hdrop
        subst hdrop
        have hne : q.bees ≠ [] := by
          intro hbb
          rw [hbb] at hhead
          simp at hhead
        unfold Place.getClosestBeeGo
        rw [if_pos (by omega), if_pos ⟨by omega, hne⟩]
        exact hhead
  simp only [EaterAnt.act, ha]
  rw [if_pos h0, hchain]

/-- C5: an Eater that swallows an attacker (digestion counter 0 to 1, the
bee moved from the cell into the stomach) and takes no damage afterwards
keeps the bee while the counter is incremented on each act while it is at
most 3, and destroys the swallowed bee (stomach emptied with nothing
returned to the board) with the counter reset to 0 exactly on the fourth
act after the swallow, the act at which the counter exceeds 3. -/
theorem eater_digestion_cycle (w : ColonyWorld) (t i : Nat) (slot : Slot) (a : AntData)
    (b : Nat) (ha : antAt w t i slot = some a) (hk : a.kind = AntKind.eater) :
    (∀ p, a.turnsEating = 0 → w.colony.getPlace t i = some p → p.bees.head? = some b →
      EaterAnt.act w t i slot =
        setAntAt (removeBeeAt w t i b) t i slot
          { a with stomach := a.stomach ++ [b], turnsEating := 1 }) ∧
    (a.turnsEating = 1 → a.stomach = [b] →
      (∀ n, n ≤ 3 →
        antAt ((fun w2 => EaterAnt.act w2 t i slot)^[n] w) t i slot =
          some { a with turnsEating := 1 + n }) ∧
      (fun w2 => EaterAnt.act w2 t i slot)^[4] w =
        setAntAt w t i slot { a with turnsEating := 0, stomach := [] }) := by
  have hp0 : ∃ p0, w.colony.getPlace t i = some p0 := by
    unfold antAt at ha
    cases hgp : w.colony.getPlace t i with
    | none => rw [hgp] at ha; simp at ha
    | some p0 => exact ⟨p0, rfl⟩
  obtain ⟨p0, hp0⟩ := hp0
  constructor
  · intro p h0 hp hhead
    exact eaterAct_swallow w t i slot a b p ha h0 hp hhead
  · intro h1 hst
    have hiter : ∀ n, n ≤ 3 → (fun w2 => EaterAnt.act w2 t i slot)^[n] w =
        setAntAt w t i slot { a with turnsEating := 1 + n } := by
      intro n
      induction n with
      | zero =>
        intro _
        show w = setAntAt w t i slot { a with turnsEating := 1 + 0 }
        have hrec : ({ a with turnsEating := 1 + 0 } : AntData) = a := by
          rw [show 1 + 0 = a.turnsEating from by omega]
        rw [hrec, setAntAt_eq_self w t i slot a ha]
      | succ m ih =>
        intro hm
        rw [Function.iterate_succ_apply']
        rw [ih (by omega)]
        have ham : antAt (setAntAt w t i slot { a with turnsEating := 1 + m }) t i slot =
            some { a with turnsEating := 1 + m } :=
          antAt_setAntAt_self w t i slot _ p0 hp0
        rw [eaterAct_increment _ t i slot _ ham (by show 1 ≤ 1 + m; omega)
          (by show 1 + m ≤ 3; omega)]
        rw [setAntAt_setAntAt]
        have harith : ({ a with turnsEating := 1 + m } : AntData).turnsEating + 1 = 1 + (m + 1) := by
          show 1 + m + 1 = 1 + (m + 1)
          omega
        rw [harith]
    refine ⟨fun n hn => ?_, ?_⟩
    · rw [hiter n hn]
      exact antAt_setAntAt_self w t i slot _ p0 hp0
    · rw [show (4 : Nat) = 3 + 1 from rfl, Function.iterate_succ_apply', hiter 3 (by omega)]
      have ha4 : antAt (setAntAt w t i slot { a with turnsEating := 1 + 3 }) t i slot =
          some { a with turnsEating := 1 + 3 } := antAt_setAntAt_self w t i slot _ p0 hp0
      rw [eaterAct_release _ t i slot _ ha4 (by show 1 + 3 > 3; omega)]
      rw [setAntAt_setAntAt]
      have hstom : ({ a with turnsEating := 1 + 3 } : AntData).stomach.tail = [] := by
        show a.stomach.tail = []
        rw [hst]
        rfl
      rw [hstom]

theorem eater_digestion_cycle_witness :
    EaterAnt.act exEaterWorld 0 0 Slot.regular =
      setAntAt (removeBeeAt exEaterWorld 0 0 5) 0 0 Slot.regular
        { AntData.new AntKind.eater with stomach := [5], turnsEating := 1 } ∧
    antAt ((fun w2 => EaterAnt.act w2 0 0 Slot.regular)^[3] exEaterFed) 0 0 Slot.regular =
      some { AntData.new AntKind.eater with turnsEating := 4, stomach := [5] } ∧
    (fun w2 => EaterAnt.act w2 0 0 Slot.regular)^[4] exEaterFed =
      setAntAt exEaterFed 0 0 Slot.regular
        { AntData.new AntKind.eater with turnsEating := 0, stomach := [] } := by
  refine ⟨?_, ?_, ?_⟩
  · exact (eater_digestion_cycle exEaterWorld 0 0 Slot.regular (AntData.new AntKind.eater) 5
      (by decide) (by decide)).1
      { water := false, ant := some (AntData.new AntKind.eater), guard := none, bees := [5] }
      (by decide) (by decide) (by decide)
  · exact ((eater_digestion_cycle exEaterFed 0 0 Slot.regular
      { AntData.new AntKind.eater with turnsEating := 1, stomach := [5] } 5
      (by decide) (by decide)).2 (by decide) (by decide)).1 3 (by omega)
  · exact ((eater_digestion_cycle exEaterFed 0 0 Slot.regular
      { AntData.new AntKind.eater with turnsEating := 1, stomach := [5] } 5
      (by decide) (by decide)).2 (by decide) (by decide)).2

/-- C7 (amended): a coordinate string whose row segment is neither the
canonical decimal index of an existing tunnel nor the name of a built-in
array property makes all three coordinate commands return the
illegal-location failure with the state untouched, whatever the rest of the
engine state.  When the lookup instead produces a defined non-cell value or
`undefined` — a valid row with a column segment that does not reach a cell,
or a row segment naming a built-in array property such as `length` —
nothing is thrown during the lookup, so `remove_at` still returns
illegal-location, but `deploy_by_name` returns the insufficient-food
failure when food is below the cost (illegal-location otherwise) and
`boost_at` returns the unknown-boost failure when its inventory check fires
(illegal-location otherwise); an unrecognized defender-type name fails with
unknown-defender-type before any coordinate handling. -/
theorem coordinate_command_errors (g : GameState) (s ty name : String) :
    (AntGame.lookupPlace g.colony s = Except.error () →
      AntGame.removeAnt g s = (some "illegal location", g) ∧
      AntGame.boostAnt g name s = (some "illegal location", g) ∧
      (∀ k, antTypeOf ty = some k → AntGame.deployAnt g ty s = (some "illegal location", g))) ∧
    (AntGame.lookupPlace g.colony s = Except.ok none →
      AntGame.removeAnt g s = (some "illegal location", g) ∧
      (∀ k, antTypeOf ty = some k →
        AntGame.deployAnt g ty s =
          ((if (AntData.new k).foodCost ≤ g.colony.food then some "illegal location"
            else some "not enough food"), g)) ∧
      AntGame.boostAnt g name s =
        ((if g.colony.boostMissing name then some "no such boost"
          else some "illegal location"), g)) ∧
    (∀ rk, (jsSplitComma s).get? 0 = some rk → rk ∈ jsArrayPropNames →
      AntGame.lookupPlace g.colony s = Except.ok none) ∧
    (antTypeOf ty = none → AntGame.deployAnt g ty s = (some "unknown ant type", g)) := by
  have hprop : ∀ rk ∈ jsArrayPropNames, jsIndex (some rk) = none := by decide
  refine ⟨fun herr => ⟨?_, ?_, fun k hk => ?_⟩, fun hok => ⟨?_, fun k hk => ?_, ?_⟩,
    fun rk hrk hmem => ?_, fun hty => ?_⟩
  · simp [AntGame.removeAnt, herr]
  · simp [AntGame.boostAnt, herr]
  · simp [AntGame.deployAnt, hk, herr]
  · simp [AntGame.removeAnt, hok]
  · by_cases hf : (AntData.new k).foodCost ≤ g.colony.food
    · simp [AntGame.deployAnt, hk, hok, AntColony.deployAnt, hf]
    · simp [AntGame.deployAnt, hk, hok, AntColony.deployAnt, hf]
  · by_cases hb : g.colony.boostMissing name
    · simp [AntGame.boostAnt, hok, AntColony.applyBoost, hb]
    · simp [AntGame.boostAnt, hok, AntColony.applyBoost, hb]
  · rw [List.get?_eq_getElem?] at hrk
    simp [AntGame.lookupPlace, hrk, hprop rk hmem, hmem]
  · simp [AntGame.deployAnt, hty]

theorem coordinate_command_errors_counterexample :
    (AntGame.deployAnt exGamePoor "thrower" "0,9").1 = some "not enough food" ∧
    (AntGame.deployAnt exGamePoor "thrower" "0,9").1 ≠ some "illegal location" ∧
    (AntGame.deployAnt exGamePoor "thrower" "length,0").1 = some "not enough food" ∧
    (AntGame.boostAnt exGameFresh "Nectar" "length,0").1 = some "no such boost" := by
  refine ⟨?_, ?_, ?_, ?_⟩ <;> decide

theorem coordinate_command_errors_witness :
    AntGame.removeAnt exGameFresh "abc,0" = (some "illegal location", exGameFresh) ∧
    AntGame.deployAnt exGamePoor "thrower" "0,9" = (some "not enough food", exGamePoor) ∧
    AntGame.boostAnt exGameFresh "Nectar" "0,9" = (some "no such boost", exGameFresh) ∧
    AntGame.deployAnt exGamePoor "thrower" "length,0" = (some "not enough food", exGamePoor) ∧
    AntGame.boostAnt exGameFresh "Nectar" "length,0" = (some "no such boost", exGameFresh) ∧
    AntGame.deployAnt exGameFresh "wizard" "0,0" = (some "unknown ant type", exGameFresh) := by
  refine ⟨?_, ?_, ?_, ?_, ?_, ?_⟩
  · exact ((coordinate_command_errors exGameFresh "abc,0" "thrower" "FlyingLeaf").1 rfl).1
  · have h := ((coordinate_command_errors exGamePoor "0,9" "thrower" "FlyingLeaf").2.1
      rfl).2.1 AntKind.thrower (by decide)
    exact h.trans (by decide)
  · have h := ((coordinate_command_errors exGameFresh "0,9" "thrower" "Nectar").2.1
      rfl).2.2
    exact h.trans (by decide)
  · have hlp := (coordinate_command_errors exGamePoor "length,0" "thrower"
      "FlyingLeaf").2.2.1 "length" rfl (by decide)
    have h := ((coordinate_command_errors exGamePoor "length,0" "thrower" "FlyingLeaf").2.1
      hlp).2.1 AntKind.thrower (by decide)
    exact h.trans (by decide)
  · have hlp := (coordinate_command_errors exGameFresh "length,0" "thrower"
      "Nectar").2.2.1 "length" rfl (by decide)
    have h := ((coordinate_command_errors exGameFresh "length,0" "thrower" "Nectar").2.1
      hlp).2.2
    exact h.trans (by decide)
  · exact (coordinate_command_errors exGameFresh "0,0" "wizard" "x").2.2.2 (by decide)

theorem wavesGet_wavesSet_self (ws : List (Nat × List Nat)) (k : Nat) (v : List Nat) :
    wavesGet (wavesSet ws k v) k = some v := by
  induction ws with
  | nil => simp [wavesSet, wavesGet]
  | cons x xs ih =>
    by_cases hx : x.1 = k
    · simp [wavesSet, wavesGet, hx]
    · simp [wavesSet, wavesGet, hx, ih]

theorem wavesGet_wavesSet_ne (ws : List (Nat × List Nat)) (k k2 : Nat) (v : List Nat)
    (h : k2 ≠ k) : wavesGet (wavesSet ws k v) k2 = wavesGet ws k2 := by
  induction ws with
  | nil => simp [wavesSet, wavesGet, Ne.symm h]
  | cons x xs ih =>
    by_cases hx : x.1 = k
    · subst hx
      simp [wavesSet, wavesGet, Ne.symm h]
    · simp [wavesSet, wavesGet, hx, ih]

theorem orphanInv_addWave (b : Nat) (g : GameState) (k n : Nat) (h : orphanInv b g) :
    orphanInv b (Hive.addWave g k n) := by
  obtain ⟨hmem, hwav, hlt⟩ := h
  refine ⟨?_, ?_, ?_⟩
  · show b ∈ g.hive.bees ++ (List.range n).map (fun j => g.nextBee + j)
    exact List.mem_append_left _ hmem
  · intro k2 wave hw
    have hw2 : wavesGet (wavesSet g.hive.waves k ((List.range n).map (fun j => g.nextBee + j)))
        k2 = some wave := hw
    by_cases hk : k2 = k
    · subst hk
      rw [wavesGet_wavesSet_self] at hw2
      injection hw2 with hw3
      subst hw3
      intro hbm
      rw [List.mem_map] at hbm
      obtain ⟨j, _, hj⟩ := hbm
      have hj2 : g.nextBee + j = b := hj
      omega
    · rw [wavesGet_wavesSet_ne _ _ _ _ hk] at hw2
      exact hwav k2 wave hw2
  · show b < g.nextBee + n
    omega

theorem invadeGo_orphan (b : Nat) :
    ∀ (bs : List Nat) (g g2 : GameState) (cs : List Nat), b ∉ bs →
      Hive.invadeGo g bs cs = Except.ok g2 →
      (b ∈ g.hive.bees → b ∈ g2.hive.bees) ∧
      g2.hive.waves = g.hive.waves ∧ g2.nextBee = g.nextBee := by
  intro bs
  induction bs with
  | nil =>
    intro g g2 cs hnb h
    unfold Hive.invadeGo at h
    injection h with h2
    subst h2
    exact ⟨fun hb => hb, rfl, rfl⟩
  | cons x rest ih =>
    intro g g2 cs hnb h
    unfold Hive.invadeGo at h
    split at h
    · exact absurd h (by simp)
    · rename_i t i hent
      have hbx : b ≠ x := fun hbx => hnb (by rw [hbx]; exact List.mem_cons_self x rest)
      have hrest : b ∉ rest := fun hr => hnb (List.mem_cons_of_mem x hr)
      have hres := ih _ g2 cs.tail hrest h
      refine ⟨fun hb => hres.1 ?_, hres.2.1, hres.2.2⟩
      exact (List.mem_erase_of_ne hbx).mpr hb

theorem invade_orphan (b : Nat) (g g2 : GameState) (turn : Nat) (cs : List Nat)
    (hinv : orphanInv b g) (h : Hive.invade g turn cs = Except.ok g2) : orphanInv b g2 := by
  unfold Hive.invade at h
  cases hw : wavesGet g.hive.waves turn with
  | none =>
    rw [hw] at h
    injection h with h2
    subst h2
    exact hinv
  | some wave =>
    rw [hw] at h
    have hnb : b ∉ wave := hinv.2.1 turn wave hw
    have hres := invadeGo_orphan b wave g g2 cs hnb h
    refine ⟨hres.1 hinv.1, ?_, ?_⟩
    · rw [hres.2.1]
      exact hinv.2.1
    · rw [hres.2.2]
      exact hinv.2.2

theorem takeTurn_orphan (b : Nat) (g g2 : GameState) (rolls : List ℚ) (choices : List Nat)
    (hinv : orphanInv b g) (h : AntGame.takeTurn g rolls choices = Except.ok g2) :
    orphanInv b g2 := by
  unfold AntGame.takeTurn at h
  split at h
  · rename_i gmid hm
    injection h with h2
    subst h2
    have hinvm : orphanInv b
        { g with
          colony := (AntColony.placesAct (AntColony.beesAct
            (AntColony.antsAct { colony := g.colony, arena := g.arena } rolls))).colony
          arena := (AntColony.placesAct (AntColony.beesAct
            (AntColony.antsAct { colony := g.colony, arena := g.arena } rolls))).arena } := hinv
    exact invade_orphan b _ gmid g.turn choices hinvm hm
  · exact absurd h (by simp)

theorem deployAnt_hive_untouched (g : GameState) (ty s : String) :
    (AntGame.deployAnt g ty s).2.hive = g.hive ∧
    (AntGame.deployAnt g ty s).2.nextBee = g.nextBee := by
  unfold AntGame.deployAnt
  split
  · exact ⟨rfl, rfl⟩
  · split
    · exact ⟨rfl, rfl⟩
    · split
      · exact ⟨rfl, rfl⟩
      · exact ⟨rfl, rfl⟩

theorem removeAnt_hive_untouched (g : GameState) (s : String) :
    (AntGame.removeAnt g s).2.hive = g.hive ∧
    (AntGame.removeAnt g s).2.nextBee = g.nextBee := by
  unfold AntGame.removeAnt
  split
  · exact ⟨rfl, rfl⟩
  · exact ⟨rfl, rfl⟩
  · exact ⟨rfl, rfl⟩

theorem boostAnt_hive_untouched (g : GameState) (name s : String) :
    (AntGame.boostAnt g name s).2.hive = g.hive ∧
    (AntGame.boostAnt g name s).2.nextBee = g.nextBee := by
  unfold AntGame.boostAnt
  split
  · exact ⟨rfl, rfl⟩
  · split
    · exact ⟨rfl, rfl⟩
    · exact ⟨rfl, rfl⟩

theorem gameStep_orphan (b : Nat) (g g2 : GameState) (h : GameStep g g2)
    (hinv : orphanInv b g) : orphanInv b g2 := by
  cases h with
  | takeTurn _ rolls choices heq => exact takeTurn_orphan b _ _ rolls choices hinv heq
  | deploy ty s =>
    obtain ⟨hh, hn⟩ := deployAnt_hive_untouched g ty s
    unfold orphanInv
    rw [hh, hn]
    exact hinv
  | remove s =>
    obtain ⟨hh, hn⟩ := removeAnt_hive_untouched g s
    unfold orphanInv
    rw [hh, hn]
    exact hinv
  | boost name s =>
    obtain ⟨hh, hn⟩ := boostAnt_hive_untouched g name s
    unfold orphanInv
    rw [hh, hn]
    exact hinv
  | addWave k n => exact orphanInv_addWave b g k n hinv

theorem gameReachable_orphan (b : Nat) (g g2 : GameState) (h : GameReachable g g2)
    (hinv : orphanInv b g) : orphanInv b g2 := by
  induction h with
  | refl => exact hinv
  | tail _ hstep ih => exact gameStep_orphan b _ _ hstep ih

theorem gameIsWon_ne_true_of_hiveBee (g : GameState) (b : Nat) (hb : b ∈ g.hive.bees) :
    AntGame.gameIsWon g ≠ some true := by
  unfold AntGame.gameIsWon
  have hlen : g.hive.bees.length ≠ 0 := by
    intro h0
    rw [List.length_eq_zero] at h0
    rw [h0] at hb
    simp at hb
  by_cases hq : g.colony.queenHasBees
  · simp [hq]
  · have hsum : (AntColony.getAllBees g.colony).length + g.hive.bees.length ≠ 0 := by omega
    simp [hq, hsum]

/-- C10: scheduling a second wave under an already-used turn key records
only the second wave list under that key, while the bees created by the
first call stay in the hive holding pool; no reachable state thereafter —
through turns, deployments, removals, boosts or further scheduling — ever
reports the game as won, since the stranded bees are in no wave and are
never released. -/
theorem double_addWave_never_won (g : GameState) (k n1 n2 : Nat)
    (hb : wavesBounded g) (hn : 0 < n1) :
    wavesGet (Hive.addWave (Hive.addWave g k n1) k n2).hive.waves k =
      some ((List.range n2).map (fun j => g.nextBee + n1 + j)) ∧
    g.nextBee ∈ (Hive.addWave (Hive.addWave g k n1) k n2).hive.bees ∧
    (∀ g2, GameReachable (Hive.addWave (Hive.addWave g k n1) k n2) g2 →
      g.nextBee ∈ g2.hive.bees ∧ AntGame.gameIsWon g2 ≠ some true) := by
  have hinv : orphanInv g.nextBee (Hive.addWave (Hive.addWave g k n1) k n2) := by
    refine ⟨?_, ?_, ?_⟩
    · show g.nextBee ∈
        (g.hive.bees ++ (List.range n1).map (fun j => g.nextBee + j)) ++
          (List.range n2).map (fun j => (g.nextBee + n1) + j)
      apply List.mem_append_left
      apply List.mem_append_right
      rw [List.mem_map]
      exact ⟨0, by rw [List.mem_range]; omega, by omega⟩
    · intro k2 wave hw
      have hw2 : wavesGet
          (wavesSet (wavesSet g.hive.waves k ((List.range n1).map (fun j => g.nextBee + j)))
            k ((List.range n2).map (fun j => (g.nextBee + n1) + j))) k2 = some wave := hw
      by_cases hk : k2 = k
      · subst hk
        rw [wavesGet_wavesSet_self] at hw2
        injection hw2 with hw3
        subst hw3
        intro hbm
        rw [List.mem_map] at hbm
        obtain ⟨j, _, hj⟩ := hbm
        have hj2 : g.nextBee + n1 + j = g.nextBee := hj
        omega
      · rw [wavesGet_wavesSet_ne _ _ _ _ hk, wavesGet_wavesSet_ne _ _ _ _ hk] at hw2
        intro hbm
        have := hb k2 wave hw2 g.nextBee hbm
        omega
    · show g.nextBee < g.nextBee + n1 + n2
      omega
  refine ⟨?_, hinv.1, fun g2 hreach => ?_⟩
  · exact wavesGet_wavesSet_self _ k _
  · have h2 := gameReachable_orphan g.nextBee _ g2 hreach hinv
    exact ⟨h2.1, gameIsWon_ne_true_of_hiveBee g2 g.nextBee h2.1⟩

theorem double_addWave_never_won_witness :
    0 ∈ (Hive.addWave (Hive.addWave exGameFresh 2 1) 2 1).hive.bees ∧
    AntGame.gameIsWon (Hive.addWave (Hive.addWave exGameFresh 2 1) 2 1) ≠ some true := by
  have h := double_addWave_never_won exGameFresh 2 1 1
    (by intro k w hw; simp [exGameFresh, exGame, exHive0, wavesGet] at hw) (by omega)
  have h2 := h.2.2 _ Relation.ReflTransGen.refl
  exact ⟨h2.1, h2.2⟩

theorem slotsAt_update_ne (w : ColonyWorld) (ar : List (Nat × BeeData)) (t2 i2 : Nat)
    (f : Place → Place) (t i : Nat) (h : (t, i) ≠ (t2, i2)) :
    slotsAt { colony := w.colony.setPlaceF t2 i2 f, arena := ar } t i = slotsAt w t i := by
  unfold slotsAt
  show ((w.colony.setPlaceF t2 i2 f).getPlace t i).map _ = _
  rw [getPlace_setPlaceF_ne _ _ _ _ _ _ h]

theorem slotsAt_setAntAt_ne (w : ColonyWorld) (t2 i2 : Nat) (slot : Slot) (a : AntData)
    (t i : Nat) (h : (t, i) ≠ (t2, i2)) :
    slotsAt (setAntAt w t2 i2 slot a) t i = slotsAt w t i :=
  slotsAt_update_ne w w.arena t2 i2 _ t i h

theorem slotsAt_removeAntAt_ne (w : ColonyWorld) (t2 i2 : Nat) (t i : Nat)
    (h : (t, i) ≠ (t2, i2)) :
    slotsAt (removeAntAt w t2 i2) t i = slotsAt w t i :=
  slotsAt_update_ne w w.arena t2 i2 _ t i h

theorem slotsAt_eaterReduce_ne (w : ColonyWorld) (t2 i2 : Nat) (slot : Slot) (amount : Int)
    (t i : Nat) (h : (t, i) ≠ (t2, i2)) :
    slotsAt (EaterAnt.reduceArmorAt w t2 i2 slot amount) t i = slotsAt w t i := by
  simp only [EaterAnt.reduceArmorAt]
  cases antAt w t2 i2 slot with
  | none => rfl
  | some a =>
    simp only []
    repeat' split
    all_goals simp only [slotsAt_addBeeAt, slotsAt_removeBeeAt,
      slotsAt_setAntAt_ne _ _ _ _ _ t i h, slotsAt_removeAntAt_ne _ _ _ t i h]

theorem slotsAt_antReduce_ne (w : ColonyWorld) (t2 i2 : Nat) (slot : Slot) (amount : Int)
    (t i : Nat) (h : (t, i) ≠ (t2, i2)) :
    slotsAt (Ant.reduceArmorAt w t2 i2 slot amount) t i = slotsAt w t i := by
  simp only [Ant.reduceArmorAt]
  cases antAt w t2 i2 slot with
  | none => rfl
  | some a =>
    simp only []
    split
    · exact slotsAt_eaterReduce_ne w t2 i2 slot amount t i h
    · split
      all_goals simp only [slotsAt_setAntAt_ne _ _ _ _ _ t i h,
        slotsAt_removeAntAt_ne _ _ _ t i h]

theorem slotsAt_sprayBee (b : Nat) :
    ∀ (n : Nat) (w : ColonyWorld) (t i : Nat),
      slotsAt (ThrowerAnt.sprayBee w b n) t i = slotsAt w t i := by
  intro n
  induction n using Nat.strong_induction_on with
  | _ n ih =>
    intro w t i
    unfold ThrowerAnt.sprayBee
    split
    · exact slotsAt_reduceArmorBee w b 10 t i
    · rw [ih (n - 10) (by omega)]
      exact slotsAt_reduceArmorBee w b 10 t i

theorem slotsAt_sprayAll : ∀ (bs : List Nat) (w : ColonyWorld) (t i : Nat),
    slotsAt (ThrowerAnt.sprayAll w bs) t i = slotsAt w t i := by
  intro bs
  induction bs with
  | nil => intro w t i; rfl
  | cons x xs ih =>
    intro w t i
    show slotsAt (ThrowerAnt.sprayAll
      (ThrowerAnt.sprayBee w x ((arenaGet w.arena x).elim 0 (fun d => d.armor.toNat))) xs) t i =
      slotsAt w t i
    rw [ih]
    exact slotsAt_sprayBee x _ w t i

theorem slotsAt_grower (w : ColonyWorld) (roll : ℚ) (t i : Nat) :
    slotsAt (GrowerAnt.act w roll) t i = slotsAt w t i := by
  unfold GrowerAnt.act
  repeat' split
  all_goals exact slotsAt_of_places_eq _ w rfl t i

theorem slotsAt_throwerAct_ne (w : ColonyWorld) (t2 i2 : Nat) (slot : Slot) (t i : Nat)
    (h : (t, i) ≠ (t2, i2)) :
    slotsAt (ThrowerAnt.act w t2 i2 slot) t i = slotsAt w t i := by
  simp only [ThrowerAnt.act]
  cases ha : antAt w t2 i2 slot with
  | none => rfl
  | some a =>
    simp only []
    split
    · split
      · split
        · rw [slotsAt_setAntAt_ne _ _ _ _ _ t i h, slotsAt_ite_setStatus, slotsAt_ite_setStatus,
            slotsAt_reduceArmorBee]
        · rw [slotsAt_ite_setStatus, slotsAt_ite_setStatus, slotsAt_reduceArmorBee]
      · rfl
    · rw [slotsAt_antReduce_ne _ _ _ _ _ t i h, slotsAt_sprayAll]

theorem slotsAt_eaterAct_ne (w : ColonyWorld) (t2 i2 : Nat) (slot : Slot) (t i : Nat)
    (h : (t, i) ≠ (t2, i2)) :
    slotsAt (EaterAnt.act w t2 i2 slot) t i = slotsAt w t i := by
  simp only [EaterAnt.act]
  cases ha : antAt w t2 i2 slot with
  | none => rfl
  | some a =>
    simp only []
    repeat' split
    all_goals simp only [slotsAt_removeBeeAt, slotsAt_setAntAt_ne _ _ _ _ _ t i h]

theorem slotsAt_actAnt_ne (w : ColonyWorld) (t2 i2 : Nat) (slot : Slot) (rolls : List ℚ)
    (t i : Nat) (h : (t, i) ≠ (t2, i2)) :
    slotsAt (actAnt w t2 i2 slot rolls).1 t i = slotsAt w t i := by
  unfold actAnt
  cases ha : antAt w t2 i2 slot with
  | none => rfl
  | some a =>
    obtain ⟨k, ar2, bo, te, st2⟩ := a
    cases k
    · exact slotsAt_grower w _ t i
    · exact slotsAt_throwerAct_ne w t2 i2 slot t i h
    · exact slotsAt_eaterAct_ne w t2 i2 slot t i h
    · exact slotsAt_throwerAct_ne w t2 i2 slot t i h
    · rfl

theorem slotsAt_runAntEntry_ne (st : SweepState) (e : Nat × Nat × AntData) (t i : Nat)
    (h : (e.1, e.2.1) ≠ (t, i)) :
    slotsAt (AntColony.runAntEntry st e).world t i = slotsAt st.world t i := by
  have hne : (t, i) ≠ (e.1, e.2.1) := Ne.symm h
  simp only [AntColony.runAntEntry]
  split
  · split
    · rw [slotsAt_actAnt_ne _ _ _ _ _ t i hne, slotsAt_actAnt_ne _ _ _ _ _ t i hne]
    · rw [slotsAt_actAnt_ne _ _ _ _ _ t i hne]
  · rw [slotsAt_actAnt_ne _ _ _ _ _ t i hne]

theorem slotsAt_foldl_ne : ∀ (L : List (Nat × Nat × AntData)) (st : SweepState) (t i : Nat),
    (∀ e ∈ L, (e.1, e.2.1) ≠ (t, i)) →
    slotsAt (L.foldl AntColony.runAntEntry st).world t i = slotsAt st.world t i := by
  intro L
  induction L with
  | nil => intro st t i _; rfl
  | cons e rest ih =>
    intro st t i hL
    show slotsAt (rest.foldl AntColony.runAntEntry (AntColony.runAntEntry st e)).world t i =
      slotsAt st.world t i
    rw [ih _ t i (fun x hx => hL x (List.mem_cons_of_mem e hx))]
    exact slotsAt_runAntEntry_ne st e t i (hL e (List.mem_cons_self e rest))

theorem runAntEntry_count_ne (st : SweepState) (e : Nat × Nat × AntData) (t i : Nat)
    (sl : Slot) (h : (e.1, e.2.1) ≠ (t, i)) :
    (AntColony.runAntEntry st e).trace.count ((t, i), sl) =
      st.trace.count ((t, i), sl) := by
  simp only [AntColony.runAntEntry]
  split
  · split
    · rw [List.count_append]
      have hz : List.count ((t, i), sl)
          [((e.1, e.2.1), Slot.regular), ((e.1, e.2.1), Slot.guardSlot)] = 0 := by
        simp [List.count_cons, h]
      omega
    · rw [List.count_append]
      have hz : List.count ((t, i), sl) [((e.1, e.2.1), Slot.guardSlot)] = 0 := by
        simp [List.count_cons, h]
      omega
  · rw [List.count_append]
    have hz : List.count ((t, i), sl) [((e.1, e.2.1), Slot.regular)] = 0 := by
      simp [List.count_cons, h]
    omega

theorem foldl_count_ne : ∀ (L : List (Nat × Nat × AntData)) (st : SweepState) (t i : Nat)
    (sl : Slot), (∀ e ∈ L, (e.1, e.2.1) ≠ (t, i)) →
    ((L.foldl AntColony.runAntEntry st).trace).count ((t, i), sl) =
      st.trace.count ((t, i), sl) := by
  intro L
  induction L with
  | nil => intro st t i sl _; rfl
  | cons e rest ih =>
    intro st t i sl hL
    show ((rest.foldl AntColony.runAntEntry (AntColony.runAntEntry st e)).trace).count _ = _
    rw [ih _ t i sl (fun x hx => hL x (List.mem_cons_of_mem e hx))]
    exact runAntEntry_count_ne st e t i sl (hL e (List.mem_cons_self e rest))

theorem runAntEntry_guard_trace (st : SweepState) (t i : Nat) (g0 a0 : AntData) (p : Place)
    (hp : st.world.colony.getPlace t i = some p) (hpg : p.guard = some g0)
    (hpa : p.ant = some a0) (hk : g0.kind = AntKind.guard) :
    (AntColony.runAntEntry st (t, i, g0)).trace =
      st.trace ++ [((t, i), Slot.regular), ((t, i), Slot.guardSlot)] := by
  simp only [AntColony.runAntEntry]
  rw [if_pos hk]
  have hguarded : ((st.world.colony.getPlace t i).bind Place.getGuardedAnt) = some a0 := by
    rw [hp]
    simp [Place.getGuardedAnt, hpa]
  rw [hguarded]

theorem getAllAnts_mem (c : AntColony) (t i : Nat) (p : Place) (x : AntData)
    (hp : c.getPlace t i = some p) (hx : p.getAnt = some x) :
    (t, i, x) ∈ AntColony.getAllAnts c := by
  have hrow : ∃ row, c.places.get? t = some row ∧ row.get? i = some p := by
    unfold AntColony.getPlace at hp
    cases hr : c.places.get? t with
    | none => rw [hr] at hp; simp at hp
    | some row =>
      rw [hr] at hp
      simp only [Option.some_bind] at hp
      exact ⟨row, rfl, hp⟩
  obtain ⟨row, hrow1, hrow2⟩ := hrow
  unfold AntColony.getAllAnts
  rw [List.mem_flatten]
  refine ⟨(List.range ((c.places.get? t).getD []).length).filterMap (fun i2 =>
      ((c.getPlace t i2).bind Place.getAnt).map (fun a => (t, i2, a))), ?_, ?_⟩
  · rw [List.mem_map]
    refine ⟨t, ?_, rfl⟩
    rw [List.mem_range]
    obtain ⟨hlt, _⟩ := List.get?_eq_some.mp hrow1
    exact hlt
  · rw [List.mem_filterMap]
    refine ⟨i, ?_, ?_⟩
    · rw [List.mem_range, hrow1]
      simp only [Option.getD_some]
      obtain ⟨hlt, _⟩ := List.get?_eq_some.mp hrow2
      exact hlt
    · rw [hp]
      simp [hx]

theorem getAllAnts_entry (c : AntColony) :
    ∀ e ∈ AntColony.getAllAnts c,
      (c.getPlace e.1 e.2.1).bind Place.getAnt = some e.2.2 := by
  intro e he
  unfold AntColony.getAllAnts at he
  rw [List.mem_flatten] at he
  obtain ⟨l, hl, hel⟩ := he
  rw [List.mem_map] at hl
  obtain ⟨t, _, rfl⟩ := hl
  rw [List.mem_filterMap] at hel
  obtain ⟨i, _, hmap⟩ := hel
  cases hb : (c.getPlace t i).bind Place.getAnt with
  | none => rw [hb] at hmap; simp at hmap
  | some a =>
    rw [hb] at hmap
    simp only [Option.map_some', Option.some.injEq] at hmap
    rw [← hmap]
    exact hb

theorem getAllAnts_pos_nodup (c : AntColony) :
    ((AntColony.getAllAnts c).map (fun e => (e.1, e.2.1))).Nodup := by
  unfold AntColony.getAllAnts
  rw [List.map_flatten, List.nodup_flatten]
  have hfst : ∀ (tt : Nat) (x : Nat × Nat),
      x ∈ ((List.range ((c.places.get? tt).getD []).length).filterMap (fun i2 =>
        ((c.getPlace tt i2).bind Place.getAnt).map (fun a => (tt, i2, a)))).map
          (fun e => (e.1, e.2.1)) → x.1 = tt := by
    intro tt x hx
    rw [List.map_filterMap, List.mem_filterMap] at hx
    obtain ⟨i2, _, hmx⟩ := hx
    cases h1 : (c.getPlace tt i2).bind Place.getAnt with
    | none => rw [h1] at hmx; simp at hmx
    | some y =>
      rw [h1] at hmx
      simp only [Option.map_some', Option.some.injEq] at hmx
      rw [← hmx]
  constructor
  · intro l hl
    rw [List.mem_map] at hl
    obtain ⟨l0, hl0, rfl⟩ := hl
    rw [List.mem_map] at hl0
    obtain ⟨t, _, rfl⟩ := hl0
    rw [List.map_filterMap]
    apply List.Nodup.filterMap ?inj (List.nodup_range _)
    intro a a2 b hb hb2
    have hba : (t, a) = b := by
      cases h1 : (c.getPlace t a).bind Place.getAnt with
      | none => rw [h1] at hb; simp at hb
      | some x =>
        rw [h1] at hb
        simp only [Option.map_some', Option.mem_def, Option.some.injEq] at hb
        exact hb
    have hba2 : (t, a2) = b := by
      cases h1 : (c.getPlace t a2).bind Place.getAnt with
      | none => rw [h1] at hb2; simp at hb2
      | some x =>
        rw [h1] at hb2
        simp only [Option.map_some', Option.mem_def, Option.some.injEq] at hb2
        exact hb2
    rw [← hba2] at hba
    have ha12 : a = a2 := by simpa using hba
    exact ha12
  · rw [List.pairwise_map, List.pairwise_map]
    refine List.Pairwise.imp ?_ (List.pairwise_lt_range _)
    intro t1 t2 hlt
    rw [List.disjoint_left]
    intro x hx1 hx2
    have e1 := hfst t1 x hx1
    have e2 := hfst t2 x hx2
    omega

/-- C1 (amended): in the defender sweep, a regular defender shielded by a
Guard has its act executed exactly once per sweep — triggered by the
Guard's entry; the general pass over `getAllAnts()` holds no separate entry
for the shielded defender, because `getAnt()` on a doubly-occupied cell
returns the Guard. -/
theorem shielded_defender_acts_once (w : ColonyWorld) (rolls : List ℚ) (t i : Nat)
    (p : Place) (g0 a0 : AntData)
    (hp : w.colony.getPlace t i = some p) (hg : p.guard = some g0)
    (hgk : g0.kind = AntKind.guard) (ha : p.ant = some a0) :
    (AntColony.antsActFull w rolls).trace.count ((t, i), Slot.regular) = 1 := by
  have hget : p.getAnt = some g0 := by unfold Place.getAnt; rw [hg]
  have hmem : (t, i, g0) ∈ AntColony.getAllAnts w.colony :=
    getAllAnts_mem w.colony t i p g0 hp hget
  obtain ⟨A, B, hsplit⟩ := List.append_of_mem hmem
  have hnodup := getAllAnts_pos_nodup w.colony
  rw [hsplit, List.map_append, List.map_cons] at hnodup
  rw [List.nodup_append] at hnodup
  obtain ⟨hA, hB, hAB⟩ := hnodup
  have hnotA : ∀ e ∈ A, (e.1, e.2.1) ≠ (t, i) := by
    intro e he heq
    have hmA : ((t, i) : Nat × Nat) ∈ A.map (fun e => (e.1, e.2.1)) := by
      rw [← heq]
      exact List.mem_map_of_mem _ he
    exact (List.disjoint_left.mp hAB hmA) (List.mem_cons_self _ _)
  have hnotB : ∀ e ∈ B, (e.1, e.2.1) ≠ (t, i) := by
    intro e he heq
    have hmB : ((t, i) : Nat × Nat) ∈ B.map (fun e => (e.1, e.2.1)) := by
      rw [← heq]
      exact List.mem_map_of_mem _ he
    rw [List.nodup_cons] at hB
    exact hB.1 hmB
  unfold AntColony.antsActFull
  rw [hsplit, List.foldl_append, List.foldl_cons]
  have hslots : slotsAt (List.foldl AntColony.runAntEntry
      { world := w, rolls := rolls, trace := [] } A).world t i = slotsAt w t i :=
    slotsAt_foldl_ne A _ t i hnotA
  have h0 : slotsAt w t i = some (some a0, some g0) := by
    unfold slotsAt
    rw [hp]
    simp [ha, hg]
  rw [h0] at hslots
  have hp1 : ∃ p1, (List.foldl AntColony.runAntEntry
      { world := w, rolls := rolls, trace := [] } A).world.colony.getPlace t i = some p1 ∧
      p1.ant = some a0 ∧ p1.guard = some g0 := by
    unfold slotsAt at hslots
    cases hq : (List.foldl AntColony.runAntEntry
        { world := w, rolls := rolls, trace := [] } A).world.colony.getPlace t i with
    | none => rw [hq] at hslots; simp at hslots
    | some p1 =>
      rw [hq] at hslots
      simp only [Option.map_some', Option.some.injEq, Prod.mk.injEq] at hslots
      exact ⟨p1, rfl, hslots.1, hslots.2⟩
  obtain ⟨p1, hq1, ha1, hg1⟩ := hp1
  have hcA : (List.foldl AntColony.runAntEntry
      { world := w, rolls := rolls, trace := [] } A).trace.count ((t, i), Slot.regular) = 0 :=
    foldl_count_ne A _ t i Slot.regular hnotA
  have hmid := runAntEntry_guard_trace (List.foldl AntColony.runAntEntry
      { world := w, rolls := rolls, trace := [] } A) t i g0 a0 p1 hq1 hg1 ha1 hgk
  rw [foldl_count_ne B _ t i Slot.regular hnotB, hmid, List.count_append, hcA]
  simp [List.count_cons]

theorem shielded_defender_double_act_refuted :
    (AntColony.antsActFull exGuardedWorld []).trace.count ((0, 0), Slot.regular) = 1 ∧
    ¬ ((AntColony.antsActFull exGuardedWorld []).trace.count ((0, 0), Slot.regular) = 2) := by
  constructor <;> decide

theorem shielded_defender_acts_once_witness :
    (AntColony.antsActFull exGuardedWorld []).trace.count ((0, 0), Slot.regular) = 1 :=
  shielded_defender_acts_once exGuardedWorld [] 0 0
    { water := false, ant := some (AntData.new AntKind.thrower),
      guard := some (AntData.new AntKind.guard), bees := [] }
    (AntData.new AntKind.guard) (AntData.new AntKind.thrower)
    (by decide) (by decide) (by decide) (by decide)
